import Mathlib

/-!
Verification of the span algebra, error/hint model and tracer state machine
of the iparse library, as a shallow embedding of the Rust sources
(src/span.rs, src/error.rs, src/tracer.rs, src/rtracer.rs, src/notracer.rs).

Machine integers (usize, u32) are modelled as Nat; raw pointers into a
source buffer are modelled by an allocation identifier `bufId` (two spans
have equal unoffsetted base pointers iff they carry the same `bufId`)
together with the buffer content `buf`.  A Rust operation that can panic
(failed assert, slice index out of bounds, Option::expect) is modelled as
returning `none`.
-/

/-- Model of nom_locate's LocatedSpan<&str> (type alias `Span` in lib.rs):
a non-owning cursor into a source buffer.  `buf` is the content of the
underlying allocation starting at the unoffsetted base pointer, `bufId`
identifies that allocation (models the base pointer value), `offset` is
`location_offset()`, `line` is `location_line()`, and the fragment is the
`len` characters of `buf` starting at `offset`. -/
structure Span where
  buf : List Char
  bufId : Nat
  offset : Nat
  line : Nat
  len : Nat
deriving DecidableEq, Repr

/-- The remaining text of the span (`fragment()`). -/
def Span.fragment (s : Span) : List Char :=
  (s.buf.drop s.offset).take s.len

/-- Model of `get_unoffsetted_ptr` (span.rs): the fragment pointer moved
back by `location_offset()`, i.e. the base pointer of the allocation. -/
def get_unoffsetted_ptr (s : Span) : Nat :=
  s.bufId

/-- Model of nom's `Offset::offset(self, second)`: the byte distance from
`a`'s fragment pointer to `b`'s fragment pointer.  For spans over the same
buffer this is the offset difference. -/
def nomOffset (a b : Span) : Nat :=
  b.offset - a.offset

/-- Model of `get_unoffsetted_slice` (span.rs): the slice from the base
pointer covering `location_offset() + len()` bytes.  (The isize overflow
asserts cannot fire over Nat.) -/
def get_unoffsetted_slice (s : Span) : List Char :=
  s.buf.take (s.offset + s.len)

/-- Rust `&slice[..n]`: panics (`none`) when `n` exceeds the length. -/
def sliceTo (l : List Char) (n : Nat) : Option (List Char) :=
  if n ≤ l.length then some (l.take n) else none

/-- Rust `&slice[n..]`: panics (`none`) when `n` exceeds the length. -/
def sliceFrom (l : List Char) (n : Nat) : Option (List Char) :=
  if n ≤ l.length then some (l.drop n) else none

/-- Model of `span_union` (span.rs): asserts that both spans share the
unoffsetted base pointer, then asserts `span0.offset ≤ span1.offset`, and
returns the span starting at `span0`'s offset and line reaching to the end
of `span1`.  A failed assert aborts, modelled as `none`. -/
def span_union (span0 span1 : Span) : Option Span :=
  if get_unoffsetted_ptr span0 ≠ get_unoffsetted_ptr span1 then none
  else if ¬ span0.offset ≤ span1.offset then none
  else some
    { buf := span0.buf
      bufId := span0.bufId
      offset := span0.offset
      line := span0.line
      len := nomOffset span0 span1 + span1.len }

/-- Model of `span_union_opt` (span.rs). -/
def span_union_opt (span0 : Option Span) (span1 : Span) : Option Span :=
  match span0 with
  | none => some span1
  | some s0 => span_union s0 span1

/-- Splitting a span `s` into the prefix of its first `k` fragment
characters and the remaining suffix, as nom's slicing operations produce
them: the first part keeps `s`'s offset and line, the second part starts
`k` characters further with the line advanced by the newlines consumed. -/
def spanSplitAt (s : Span) (k : Nat) : Span × Span :=
  ({ buf := s.buf, bufId := s.bufId, offset := s.offset, line := s.line,
     len := k },
   { buf := s.buf, bufId := s.bufId, offset := s.offset + k,
     line := s.line + (s.fragment.take k).count '\n',
     len := s.len - k })

/-- Model of `memchr::memchr`: index of the first occurrence of a byte. -/
def memchr (c : Char) (l : List Char) : Option Nat :=
  l.findIdx? (· == c)

/-- Model of `memchr::memrchr`: index of the last occurrence of a byte. -/
def memrchr (c : Char) (l : List Char) : Option Nat :=
  match l.reverse.findIdx? (· == c) with
  | none => none
  | some j => some (l.length - 1 - j)

/-- Building one returned line span of `get_lines_before` / `get_lines_after`
(`Span::new_from_raw_offset(offset, n, s, extra)`): offset, line and the
content's length over the same buffer. -/
def mkLineSpan (span0 : Span) (ln off : Nat) (content : List Char) : Span :=
  { buf := span0.buf, bufId := span0.bufId, offset := off, line := ln,
    len := content.length }

/-- The `for i in 1..=n` loop of `get_lines_after`, collecting up to `fuel`
further lines after the current one.  `i` is the loop counter, `lo` the
running `loop_offset`, `ls` the running `loop_slice`.  (`split_at` inside
the loop cannot panic since the split index is at most the length.) -/
def linesAfterLoop (line0 : Nat) : Nat → Nat → Nat → List Char → List (Nat × Nat × List Char)
  | 0, _, _, _ => []
  | fuel + 1, i, lo, ls =>
    match memchr '\n' ls with
    | none => [(line0 + i, lo, ls)]
    | some off =>
      (line0 + i, lo, ls.take off) ::
        linesAfterLoop line0 fuel (i + 1) (lo + off + 1) (ls.drop (off + 1))

/-- Model of `get_lines_after` (span.rs): the rest of the current line and
up to `n` following lines.  The initial `&slice[..offset0 + 1]` slice is a
checked index (`sliceTo`); a failed bound aborts (`none`). -/
def get_lines_after (span0 : Span) (n : Nat) : Option (List Span) :=
  let line0 := span0.line
  let offset0 := span0.offset
  let slice := get_unoffsetted_slice span0
  match sliceTo slice (offset0 + 1) with
  | none => none
  | some ls0 =>
    let offset_b := match memrchr '\n' ls0 with
      | none => 0
      | some off => off + 1
    match sliceFrom slice offset_b with
    | none => none
    | some ls1 =>
      let (v1, ls2, lo2) :=
        match memchr '\n' ls1 with
        | none => ([(line0, offset_b, ls1)], ([] : List Char), offset_b + ls1.length)
        | some off => ([(line0, offset_b, ls1.take off)], ls1.drop (off + 1), offset_b + off + 1)
      let v2 := if ls2.length > 0 then v1 ++ linesAfterLoop line0 n 1 lo2 ls2 else v1
      some (v2.map (fun e => mkLineSpan span0 e.1 e.2.1 e.2.2))

/-- The `for i in 1..=n` loop of `get_lines_before`, collecting up to
`fuel` lines before the current one (in backwards order; the caller
reverses).  `ls` is the running `loop_slice`.  Line numbers are 1-based
u32 in the source; subtraction is modelled on Nat. -/
def linesBeforeLoop (line0 : Nat) : Nat → Nat → List Char → List (Nat × Nat × List Char)
  | 0, _, _ => []
  | fuel + 1, i, ls =>
    match memrchr '\n' ls with
    | none => [(line0 - i, 0, ls)]
    | some off =>
      (line0 - i, off + 1, ls.drop (off + 1)) ::
        linesBeforeLoop line0 fuel (i + 1) (ls.take off)

/-- Model of `get_lines_before` (span.rs): the current line (completed) and
up to `n` preceding lines.  The initial `&slice[..offset0 + 1]` slice is a
checked index (`sliceTo`); a failed bound aborts (`none`). -/
def get_lines_before (span0 : Span) (n : Nat) : Option (List Span) :=
  let line0 := span0.line
  let offset0 := span0.offset
  let slice := get_unoffsetted_slice span0
  match sliceTo slice (offset0 + 1) with
  | none => none
  | some ls0 =>
    let offset_b := match memrchr '\n' ls0 with
      | none => 0
      | some off => off + 1
    match sliceFrom slice offset_b with
    | none => none
    | some ls1 =>
      let v1 := match memchr '\n' ls1 with
        | none => [(line0, offset_b, ls1)]
        | some off => [(line0, offset_b, ls1.take off)]
      if offset_b = 0 then
        some ((v1.map (fun e => mkLineSpan span0 e.1 e.2.1 e.2.2)).reverse)
      else
        match sliceTo slice (offset_b - 1) with
        | none => none
        | some ls2 =>
          let v2 := v1 ++ linesBeforeLoop line0 n 1 ls2
          some ((v2.map (fun e => mkLineSpan span0 e.1 e.2.1 e.2.2)).reverse)

/-- Hint for an expected token (error.rs `Expect`): `code`, `span` and the
parser call stack `parents` recorded when the hint was created (tracer.rs
builds hints with this chain; the constructors in error.rs leave it
empty). -/
structure Expect (C : Type) where
  code : C
  span : Span
  parents : List C
deriving DecidableEq, Repr

/-- Hint for an optional token (error.rs `Suggest`), same fields. -/
structure Suggest (C : Type) where
  code : C
  span : Span
  parents : List C
deriving DecidableEq, Repr

/-- Raw diagnostic from the elementary matcher (error.rs `Nom`); the nom
`ErrorKind` is modelled as a number. -/
structure Nom where
  kind : Nat
  span : Span
deriving DecidableEq, Repr

/-- One collected hint of a ParserError (error.rs `Hints`). -/
inductive Hints (C : Type) where
  | nom : Nom → Hints C
  | suggest : Suggest C → Hints C
  | expect : Expect C → Hints C
deriving DecidableEq, Repr

/-- Error of the parser (error.rs `ParserError`): code, span, the tracer's
seen-flag `tracing`, and the ordered hint list. -/
structure ParserError (C : Type) where
  code : C
  span : Span
  tracing : Bool
  hints : List (Hints C)
deriving DecidableEq, Repr

/-- `ParserError::new`. -/
def ParserError.new (code : C) (span : Span) : ParserError C :=
  { code := code, span := span, tracing := false, hints := [] }

/-- `ParserError::append_expect`: push each Expect value onto the hint
list. -/
def ParserError.append_expect (e : ParserError C) (exp : List (Expect C)) : ParserError C :=
  { e with hints := e.hints ++ exp.map Hints.expect }

/-- `ParserError::append_suggest`: push each Suggest value onto the hint
list. -/
def ParserError.append_suggest (e : ParserError C) (sug : List (Suggest C)) : ParserError C :=
  { e with hints := e.hints ++ sug.map Hints.suggest }

/-- The descending-offset preorder used by `group_by_offset`'s
`sort_by(|a, b| b.span.location_offset().cmp(&a.span.location_offset()))`. -/
def offGE (a b : Expect C) : Prop :=
  b.span.offset ≤ a.span.offset

instance : DecidableRel (@offGE C) := fun _ _ => Nat.decLe _ _

instance : IsTotal (Expect C) offGE :=
  ⟨fun a b => (Nat.le_total b.span.offset a.span.offset).elim Or.inl Or.inr⟩

instance : IsTrans (Expect C) offGE :=
  ⟨fun _ _ _ h1 h2 => Nat.le_trans h2 h1⟩

/-- The accumulation loop of `Expect::group_by_offset` (error.rs): `cur` is
`grp_offset`, `acc` is `grp`, `sub` is `subgrp`; a new pair is flushed when
the offset changes and `subgrp` is non-empty, and once more after the
loop. -/
def groupLoop : Nat → List (Nat × List (Expect C)) → List (Expect C) → List (Expect C) →
    List (Nat × List (Expect C))
  | cur, acc, sub, [] => if sub.isEmpty then acc else acc ++ [(cur, sub)]
  | cur, acc, sub, e :: rest =>
    if e.span.offset = cur then
      groupLoop cur acc (sub ++ [e]) rest
    else
      groupLoop e.span.offset (if sub.isEmpty then acc else acc ++ [(cur, sub)]) [e] rest

/-- Model of `Expect::group_by_offset` (error.rs): reverse the input, then
stable-sort by descending span offset, then split into runs of equal
offset.  Rust's `slice::sort_by` is a stable sort; it is modelled by the
stable `List.insertionSort` under the same total preorder (all stable
sorts agree on the result). -/
def Expect.group_by_offset (l : List (Expect C)) : List (Nat × List (Expect C)) :=
  groupLoop 0 [] [] (List.insertionSort offGE l.reverse)

/-- A sample Expect hint with numeric code `c` at offset `o`. -/
def sampleExpect (c o : Nat) : Expect Nat :=
  ⟨c, ⟨[], 0, o, 1, 0⟩, []⟩

/-- Ten Expect hints recorded at the three distinct offsets 7, 3 and 5. -/
def tenExpects : List (Expect Nat) :=
  [sampleExpect 1 7, sampleExpect 2 3, sampleExpect 3 5, sampleExpect 4 7,
   sampleExpect 5 3, sampleExpect 6 5, sampleExpect 7 7, sampleExpect 8 3,
   sampleExpect 9 5, sampleExpect 10 7]

/-- Usage flag of a frame (tracer.rs `Usage`). -/
inductive Usage where
  | track
  | drop
  | use
deriving DecidableEq, Repr

/-- One Expect frame of the tracer (tracer.rs `ExpectTrack`). -/
structure ExpectTrack (C : Type) where
  func : C
  usage : Usage
  list : List (Expect C)
  parents : List C
deriving DecidableEq, Repr

/-- One Suggest frame of the tracer (tracer.rs `SuggestTrack`). -/
structure SuggestTrack (C : Type) where
  func : C
  usage : Usage
  list : List (Suggest C)
  parents : List C
deriving DecidableEq, Repr

/-- One entry of the trace log (tracer.rs `Track`).  The source's
`ErrTrack` stores the rendered error string; the model stores the error
value itself. -/
inductive Track (C : Type) where
  | enter (func : C) (span : Span) (parents : List C)
  | step (func : C) (stepInfo : String) (span : Span) (parents : List C)
  | dbg (func : C) (dbgInfo : String) (parents : List C)
  | expect (t : ExpectTrack C)
  | suggest (t : SuggestTrack C)
  | ok (func : C) (span : Span) (rest : Span) (parents : List C)
  | err (func : C) (span : Span) (e : ParserError C) (parents : List C)
  | exit (func : C) (parents : List C)
deriving DecidableEq, Repr

/-- State of the full tracer (tracer.rs `CTracer<C, TRACK>`): the function
code stack, the trace log, and the Suggest/Expect frame stacks.  Vectors
grow at the end of the lists.  The const generic `TRACK` is passed to the
operations as the Bool `tk`. -/
structure CTracer (C : Type) where
  func : List C
  track : List (Track C)
  suggest : List (SuggestTrack C)
  expect : List (ExpectTrack C)
deriving DecidableEq, Repr

/-- `CTracer::new`. -/
def CTracer.new : CTracer C :=
  ⟨[], [], [], []⟩

/-- `CTracer::func`: the innermost function code; panics (`none`) on an
empty stack. -/
def CTracer.funcLast (t : CTracer C) : Option C :=
  t.func.getLast?

/-- `CTracer::parent_vec`: the current function call stack. -/
def CTracer.parent_vec (t : CTracer C) : List C :=
  t.func

/-- `CTracer::push_expect`: push a fresh Expect frame tagged with the
current call stack. -/
def CTracer.push_expect (t : CTracer C) (f : C) : CTracer C :=
  { t with expect := t.expect ++ [⟨f, Usage.track, [], t.parent_vec⟩] }

/-- `CTracer::pop_expect`: pop the innermost Expect frame; panics
(`none`) on an empty stack. -/
def CTracer.pop_expect (t : CTracer C) : Option (ExpectTrack C × CTracer C) :=
  match t.expect.getLast? with
  | none => none
  | some fr => some (fr, { t with expect := t.expect.dropLast })

/-- `CTracer::track_expect_single`: when tracking, log one Expect value
(with an empty parent chain inside the logged hint). -/
def CTracer.track_expect_single (tk : Bool) (t : CTracer C) (u : Usage) (code : C)
    (span : Span) : Option (CTracer C) :=
  if tk then
    match t.funcLast with
    | none => none
    | some f =>
      some { t with track := t.track ++ [Track.expect ⟨f, u, [⟨code, span, []⟩], t.parent_vec⟩] }
  else some t

/-- `CTracer::add_expect`: log the value, then push an Expect hint tagged
with the current call stack onto the innermost Expect frame; panics
(`none`) on an empty stack. -/
def CTracer.add_expect (tk : Bool) (t : CTracer C) (code : C) (span : Span) :
    Option (CTracer C) :=
  let parents := t.parent_vec
  match CTracer.track_expect_single tk t Usage.track code span with
  | none => none
  | some t1 =>
    match t1.expect.getLast? with
    | none => none
    | some fr =>
      some { t1 with
        expect := t1.expect.dropLast ++ [{ fr with list := fr.list ++ [⟨code, span, parents⟩] }] }

/-- `CTracer::push_suggest`. -/
def CTracer.push_suggest (t : CTracer C) (f : C) : CTracer C :=
  { t with suggest := t.suggest ++ [⟨f, Usage.track, [], t.parent_vec⟩] }

/-- `CTracer::pop_suggest`: panics (`none`) on an empty stack. -/
def CTracer.pop_suggest (t : CTracer C) : Option (SuggestTrack C × CTracer C) :=
  match t.suggest.getLast? with
  | none => none
  | some fr => some (fr, { t with suggest := t.suggest.dropLast })

/-- `CTracer::add_suggest`: push a Suggest hint tagged with the current
call stack onto the innermost Suggest frame; panics (`none`) on an empty
stack. -/
def CTracer.add_suggest (t : CTracer C) (code : C) (span : Span) : Option (CTracer C) :=
  match t.suggest.getLast? with
  | none => none
  | some fr =>
    some { t with
      suggest := t.suggest.dropLast ++ [{ fr with list := fr.list ++ [⟨code, span, t.parent_vec⟩] }] }

/-- `CTracer::append_suggest`: append values to the innermost Suggest
frame; panics (`none`) on an empty stack. -/
def CTracer.append_suggest (t : CTracer C) (sug : List (Suggest C)) : Option (CTracer C) :=
  match t.suggest.getLast? with
  | none => none
  | some fr =>
    some { t with suggest := t.suggest.dropLast ++ [{ fr with list := fr.list ++ sug }] }

/-- `CTracer::track_enter`. -/
def CTracer.track_enter (tk : Bool) (t : CTracer C) (span : Span) : Option (CTracer C) :=
  if tk then
    match t.funcLast with
    | none => none
    | some f => some { t with track := t.track ++ [Track.enter f span t.parent_vec] }
  else some t

/-- `CTracer::track_suggest`: when tracking, log a non-empty Suggest
list. -/
def CTracer.track_suggest (tk : Bool) (t : CTracer C) (u : Usage) (sug : List (Suggest C)) :
    Option (CTracer C) :=
  if tk then
    if sug.isEmpty then some t
    else
      match t.funcLast with
      | none => none
      | some f => some { t with track := t.track ++ [Track.suggest ⟨f, u, sug, t.parent_vec⟩] }
  else some t

/-- `CTracer::track_expect`: when tracking, log a non-empty Expect
list. -/
def CTracer.track_expect (tk : Bool) (t : CTracer C) (u : Usage) (exp : List (Expect C)) :
    Option (CTracer C) :=
  if tk then
    if exp.isEmpty then some t
    else
      match t.funcLast with
      | none => none
      | some f => some { t with track := t.track ++ [Track.expect ⟨f, u, exp, t.parent_vec⟩] }
  else some t

/-- `CTracer::track_ok`. -/
def CTracer.track_ok (tk : Bool) (t : CTracer C) (rest span : Span) : Option (CTracer C) :=
  if tk then
    match t.funcLast with
    | none => none
    | some f => some { t with track := t.track ++ [Track.ok f span rest t.parent_vec] }
  else some t

/-- `CTracer::track_error`. -/
def CTracer.track_error (tk : Bool) (t : CTracer C) (e : ParserError C) : Option (CTracer C) :=
  if tk then
    match t.funcLast with
    | none => none
    | some f => some { t with track := t.track ++ [Track.err f e.span e t.parent_vec] }
  else some t

/-- `CTracer::track_exit`. -/
def CTracer.track_exit (tk : Bool) (t : CTracer C) : Option (CTracer C) :=
  if tk then
    match t.funcLast with
    | none => none
    | some f => some { t with track := t.track ++ [Track.exit f t.parent_vec] }
  else some t

/-- `Tracer::enter` for CTracer: push the function code, then a Suggest
and an Expect frame, then log Enter. -/
def CTracer.enter (tk : Bool) (t : CTracer C) (func : C) (span : Span) : Option (CTracer C) :=
  let t1 := { t with func := t.func ++ [func] }
  let t2 := CTracer.push_suggest t1 func
  let t3 := CTracer.push_expect t2 func
  CTracer.track_enter tk t3 span

/-- `Tracer::suggest` for CTracer (named suggestOp since the state field
is called suggest): `add_suggest` on the innermost frame. -/
def CTracer.suggestOp (t : CTracer C) (code : C) (span : Span) : Option (CTracer C) :=
  CTracer.add_suggest t code span

/-- Expect values of a hint list, in order (the Expect arm of the match
in `CTracer::stash`). -/
def expectHints (hs : List (Hints C)) : List (Expect C) :=
  hs.filterMap fun h =>
    match h with
    | Hints.expect v => some v
    | _ => none

/-- Suggest values of a hint list, in order (the Suggest arm of the match
in `CTracer::stash`). -/
def suggestHints (hs : List (Hints C)) : List (Suggest C) :=
  hs.filterMap fun h =>
    match h with
    | Hints.suggest v => some v
    | _ => none

/-- `Tracer::stash` for CTracer: record the retired error's code and span
as an Expect hint of the current frame, then splice its Expect hints into
the current Expect frame and its Suggest hints into the current Suggest
frame, dropping Nom hints.  (The source's single pass over `err.hints`
pushes each hint to its frame; per frame that appends the filtered
sublist in order.) -/
def CTracer.stash (tk : Bool) (t : CTracer C) (e : ParserError C) : Option (CTracer C) :=
  match CTracer.add_expect tk t e.code e.span with
  | none => none
  | some t1 =>
    match t1.expect.getLast?, t1.suggest.getLast? with
    | some ef, some sf =>
      some { t1 with
        expect := t1.expect.dropLast ++ [{ ef with list := ef.list ++ expectHints e.hints }],
        suggest := t1.suggest.dropLast ++ [{ sf with list := sf.list ++ suggestHints e.hints }] }
    | _, _ => none

/-- `Tracer::ok` for CTracer: log Ok, pop and log-drop the Expect frame,
pop the Suggest frame and either merge it into the enclosing frame or (at
the top level) push it back, log Exit, pop the function code.  The
successful value `(rest, val)` is returned unchanged by the source and
omitted here. -/
def CTracer.ok (tk : Bool) (t : CTracer C) (rest span : Span) : Option (CTracer C) :=
  match CTracer.track_ok tk t rest span with
  | none => none
  | some t1 =>
    match CTracer.pop_expect t1 with
    | none => none
    | some (exp, t2) =>
      match CTracer.track_expect tk t2 Usage.drop exp.list with
      | none => none
      | some t3 =>
        match CTracer.pop_suggest t3 with
        | none => none
        | some (sug, t4) =>
          match
            (if t4.suggest.isEmpty then some { t4 with suggest := t4.suggest ++ [sug] }
             else CTracer.append_suggest t4 sug.list) with
          | none => none
          | some t5 =>
            match CTracer.track_exit tk t5 with
            | none => none
            | some t6 => some { t6 with func := t6.func.dropLast }

/-- `Tracer::err` for CTracer: set the seen-flag (the historical
`add_expect` of the error's own code on first observation is commented
out in the source), pop the Expect frame and fold it into the error, pop
the Suggest frame and fold it, log Err and Exit, pop the function code,
return the enriched error. -/
def CTracer.err (tk : Bool) (t : CTracer C) (e : ParserError C) :
    Option (CTracer C × ParserError C) :=
  let e1 := if e.tracing then e else { e with tracing := true }
  match CTracer.pop_expect t with
  | none => none
  | some (exp, t1) =>
    match CTracer.track_expect tk t1 Usage.use exp.list with
    | none => none
    | some t2 =>
      let e2 := e1.append_expect exp.list
      match CTracer.pop_suggest t2 with
      | none => none
      | some (sug, t3) =>
        match CTracer.track_suggest tk t3 Usage.use sug.list with
        | none => none
        | some t4 =>
          let e3 := e2.append_suggest sug.list
          match CTracer.track_error tk t4 e3 with
          | none => none
          | some t5 =>
            match CTracer.track_exit tk t5 with
            | none => none
            | some t6 => some ({ t6 with func := t6.func.dropLast }, e3)

/-- One tracer operation of a history (the operations of claim C1). -/
inductive TOp (C : Type) where
  | enter (func : C) (span : Span)
  | suggest (code : C) (span : Span)
  | stash (e : ParserError C)
  | ok (rest span : Span)
  | err (e : ParserError C)
deriving DecidableEq, Repr

/-- Apply one operation to a CTracer state (`tk` is the TRACK const
generic). -/
def stepOp (tk : Bool) (t : CTracer C) : TOp C → Option (CTracer C)
  | TOp.enter f s => CTracer.enter tk t f s
  | TOp.suggest c s => CTracer.suggestOp t c s
  | TOp.stash e => CTracer.stash tk t e
  | TOp.ok r s => CTracer.ok tk t r s
  | TOp.err e => (CTracer.err tk t e).map Prod.fst

/-- Run a sequence of operations; a panic (`none`) aborts the run. -/
def execOps (tk : Bool) (t : CTracer C) : List (TOp C) → Option (CTracer C)
  | [] => some t
  | op :: ops =>
    match stepOp tk t op with
    | none => none
    | some t1 => execOps tk t1 ops

/-- The balance invariant that actually holds of CTracer: the Expect
stack depth always equals the function-code stack depth, and the Suggest
stack depth equals it or exceeds it by exactly one (the extra frame
appears when an outermost frame is resolved by `ok`, which pushes the
popped Suggest frame back). -/
def framesInv (t : CTracer C) : Prop :=
  t.expect.length = t.func.length ∧
    (t.suggest.length = t.func.length ∨ t.suggest.length = t.func.length + 1)

/-- A sample one-character span. -/
def sampleSpan : Span :=
  ⟨['a'], 0, 0, 1, 1⟩

/-- The CTracer state after `enter 7` and the outermost `ok`. -/
def sampleBalState : CTracer Nat :=
  ⟨[], [Track.enter 7 sampleSpan [7], Track.ok 7 sampleSpan sampleSpan [7], Track.exit 7 [7]],
   [⟨7, Usage.track, [], [7]⟩], []⟩

/-- A CTracer state with one open frame for code 7 (as left by
`enter 7` from `new`). -/
def sampleFrameState : CTracer Nat :=
  { func := [7], track := [Track.enter 7 sampleSpan [7]],
    suggest := [⟨7, Usage.track, [], [7]⟩], expect := [⟨7, Usage.track, [], [7]⟩] }

/-- State after entering inner frame 9 from sampleFrameState. -/
def c4T1 : CTracer Nat :=
  { func := [7, 9], track := [Track.enter 7 sampleSpan [7]],
    suggest := [⟨7, Usage.track, [], [7]⟩, ⟨9, Usage.track, [], [7, 9]⟩],
    expect := [⟨7, Usage.track, [], [7]⟩, ⟨9, Usage.track, [], [7, 9]⟩] }

/-- State after the inner frame suggests code 3. -/
def c4T2 : CTracer Nat :=
  { func := [7, 9], track := [Track.enter 7 sampleSpan [7]],
    suggest := [⟨7, Usage.track, [], [7]⟩,
      ⟨9, Usage.track, [⟨3, sampleSpan, [7, 9]⟩], [7, 9]⟩],
    expect := [⟨7, Usage.track, [], [7]⟩, ⟨9, Usage.track, [], [7, 9]⟩] }

/-- State after the inner ok merged the suggestion into frame 7. -/
def c4U0 : CTracer Nat :=
  { func := [7], track := [Track.enter 7 sampleSpan [7]],
    suggest := [⟨7, Usage.track, [⟨3, sampleSpan, [7, 9]⟩], [7]⟩],
    expect := [⟨7, Usage.track, [], [7]⟩] }

/-- State after the enclosing err. -/
def c4Uf : CTracer Nat :=
  { func := [], track := [Track.enter 7 sampleSpan [7]], suggest := [], expect := [] }

/-- The error returned by the enclosing err, carrying the suggestion. -/
def c4E : ParserError Nat :=
  { code := 5, span := sampleSpan, tracing := true,
    hints := [Hints.suggest ⟨3, sampleSpan, [7, 9]⟩] }

/-- The no-op tracer (notracer.rs `NoTracer`): no state at all. -/
structure NoTracer : Type where
deriving DecidableEq, Repr

/-- `NoTracer::ok`: does no bookkeeping and returns `Ok((rest, val))`;
it cannot panic (always `some`). -/
def NoTracer.ok {α : Type} (_t : NoTracer) (rest _span : Span) (val : α) :
    Option (Except (ParserError C) (Span × α)) :=
  some (Except.ok (rest, val))

/-- `NoTracer::err`: does no bookkeeping and returns `Err(err)`;
it cannot panic (always `some`). -/
def NoTracer.err (α : Type) (_t : NoTracer) (e : ParserError C) :
    Option (Except (ParserError C) α) :=
  some (Except.error e)

/-- The error type the replay-only tracer (rtracer.rs) is written
against: an earlier ParserError revision with separate expect and
suggest lists. -/
structure RParserError (C : Type) where
  code : C
  span : Span
  tracing : Bool
  expect : List (Expect C)
  suggest : List (Suggest C)
deriving DecidableEq, Repr

/-- State of the replay-only tracer (rtracer.rs `RTracer`): frame stacks
but no trace log (its track_* methods are no-ops). -/
structure RTracer (C : Type) where
  func : List C
  suggest : List (SuggestTrack C)
  expect : List (ExpectTrack C)
deriving DecidableEq, Repr

/-- `RTracer::new`. -/
def RTracer.new : RTracer C :=
  ⟨[], [], []⟩

/-- `RTracer::func`: panics (`none`) on an empty stack. -/
def RTracer.funcLast (t : RTracer C) : Option C :=
  t.func.getLast?

/-- `RTracer::pop_expect`: panics (`none`) on an empty stack. -/
def RTracer.pop_expect (t : RTracer C) : Option (ExpectTrack C × RTracer C) :=
  match t.expect.getLast? with
  | none => none
  | some fr => some (fr, { t with expect := t.expect.dropLast })

/-- `RTracer::add_expect`: panics (`none`) on an empty stack. -/
def RTracer.add_expect (t : RTracer C) (code : C) (span : Span) : Option (RTracer C) :=
  match t.expect.getLast? with
  | none => none
  | some fr =>
    some { t with
      expect := t.expect.dropLast ++ [{ fr with list := fr.list ++ [⟨code, span, t.func⟩] }] }

/-- `RTracer::pop_suggest`: panics (`none`) on an empty stack. -/
def RTracer.pop_suggest (t : RTracer C) : Option (SuggestTrack C × RTracer C) :=
  match t.suggest.getLast? with
  | none => none
  | some fr => some (fr, { t with suggest := t.suggest.dropLast })

/-- `RTracer::append_suggest`: panics (`none`) on an empty stack. -/
def RTracer.append_suggest (t : RTracer C) (sug : List (Suggest C)) : Option (RTracer C) :=
  match t.suggest.getLast? with
  | none => none
  | some fr =>
    some { t with suggest := t.suggest.dropLast ++ [{ fr with list := fr.list ++ sug }] }

/-- `RTracer::ok`: pop the Expect frame, pop the Suggest frame and merge
it into the enclosing frame when one exists (no push-back at top level),
pop the function code, return `(rest, val)`. -/
def RTracer.ok (t : RTracer C) (rest _span : Span) : Option (RTracer C × Span) :=
  match RTracer.pop_expect t with
  | none => none
  | some (_exp, t1) =>
    match RTracer.pop_suggest t1 with
    | none => none
    | some (sug, t2) =>
      match (if t2.suggest.isEmpty then some t2 else RTracer.append_suggest t2 sug.list) with
      | none => none
      | some t3 => some ({ t3 with func := t3.func.dropLast }, rest)

/-- `RTracer::err` (this revision still records the fresh error's own
code — or the current function code for special codes — as an Expect
hint, and re-stamps the error's code with the current function code):
`isSpec` models `Code::is_special`. -/
def RTracer.err (isSpec : C → Bool) (t : RTracer C) (e : RParserError C) :
    Option (RTracer C × RParserError C) :=
  let step1 : Option (RTracer C × RParserError C) :=
    if e.tracing then some (t, e)
    else
      let e1 := { e with tracing := true }
      if isSpec e.code then
        match RTracer.funcLast t with
        | none => none
        | some f =>
          match RTracer.add_expect t f e.span with
          | none => none
          | some t1 => some (t1, e1)
      else
        match RTracer.add_expect t e.code e.span with
        | none => none
        | some t1 => some (t1, e1)
  match step1 with
  | none => none
  | some (t1, e1) =>
    match RTracer.funcLast t1 with
    | none => none
    | some f =>
      let e2 := { e1 with code := f }
      match RTracer.pop_expect t1 with
      | none => none
      | some (exp, t2) =>
        let e3 := { e2 with expect := e2.expect ++ exp.list }
        match RTracer.pop_suggest t2 with
        | none => none
        | some (sug, t3) =>
          let e4 := { e3 with suggest := e3.suggest ++ sug.list }
          some ({ t3 with func := t3.func.dropLast }, e4)

/-- Claim C2: for every span S and every split of S into a prefix P and
suffix Q at an arbitrary offset k ≤ S.len, `span_union P Q` returns a span
with exactly S's location offset, location line and full fragment text. -/
theorem span_union_roundtrip (s : Span) (k : Nat) (hk : k ≤ s.len) :
    ∃ u, span_union (spanSplitAt s k).1 (spanSplitAt s k).2 = some u ∧
      u.offset = s.offset ∧ u.line = s.line ∧ u.fragment = s.fragment := by
  refine ⟨⟨s.buf, s.bufId, s.offset, s.line, nomOffset (spanSplitAt s k).1 (spanSplitAt s k).2 + (s.len - k)⟩, ?_, rfl, rfl, ?_⟩
  · simp [span_union, spanSplitAt, get_unoffsetted_ptr]
  · simp only [Span.fragment, spanSplitAt, nomOffset]
    have h1 : s.offset + k - s.offset = k := by omega
    have h2 : k + (s.len - k) = s.len := by omega
    rw [h1, h2]

/-- Witness for span_union_roundtrip at a concrete span and offset. -/
theorem span_union_roundtrip_witness :
    (2 : Nat) ≤ 4 ∧
    ∃ u, span_union
        (spanSplitAt ⟨['a', 'b', 'c', 'd'], 0, 0, 1, 4⟩ 2).1
        (spanSplitAt ⟨['a', 'b', 'c', 'd'], 0, 0, 1, 4⟩ 2).2 = some u ∧
      u.offset = 0 ∧ u.line = 1 ∧
      u.fragment = (⟨['a', 'b', 'c', 'd'], 0, 0, 1, 4⟩ : Span).fragment :=
  ⟨by decide, span_union_roundtrip ⟨['a', 'b', 'c', 'd'], 0, 0, 1, 4⟩ 2 (by decide)⟩

/-- Claim C3: `span_union` on spans from different buffers (distinct
unoffsetted base pointers), or on same-buffer spans given in reversed
offset order, aborts (returns `none`) rather than returning any span. -/
theorem span_union_guard (a b : Span)
    (h : a.bufId ≠ b.bufId ∨ (a.bufId = b.bufId ∧ b.offset < a.offset)) :
    span_union a b = none := by
  rcases h with h | ⟨_, h⟩
  · simp [span_union, get_unoffsetted_ptr, h]
  · simp only [span_union, get_unoffsetted_ptr]
    rw [if_neg, if_pos] <;> omega

/-- Witness for span_union_guard: reversed offsets on one buffer, and two
distinct buffers. -/
theorem span_union_guard_witness :
    ((⟨['a', 'b'], 0, 1, 1, 1⟩ : Span).bufId ≠ (⟨['a', 'b'], 0, 0, 1, 2⟩ : Span).bufId ∨
      ((⟨['a', 'b'], 0, 1, 1, 1⟩ : Span).bufId = (⟨['a', 'b'], 0, 0, 1, 2⟩ : Span).bufId ∧
        (⟨['a', 'b'], 0, 0, 1, 2⟩ : Span).offset < (⟨['a', 'b'], 0, 1, 1, 1⟩ : Span).offset)) ∧
    span_union ⟨['a', 'b'], 0, 1, 1, 1⟩ ⟨['a', 'b'], 0, 0, 1, 2⟩ = none ∧
    span_union ⟨['a', 'b'], 0, 0, 1, 2⟩ ⟨['x', 'y'], 1, 0, 1, 2⟩ = none :=
  ⟨Or.inr ⟨rfl, by decide⟩,
   span_union_guard _ _ (Or.inr ⟨rfl, by decide⟩),
   span_union_guard _ _ (Or.inl (by decide))⟩

/-- Claim C10: on a span whose remaining fragment is empty, both
`get_lines_before` and `get_lines_after` hit the out-of-bounds slice index
`offset + 1` on the reconstructed buffer of length `offset + 0` and abort
(`none`) instead of returning the current line. -/
theorem get_lines_empty_fragment_aborts (s : Span) (n : Nat) (h : s.len = 0) :
    get_lines_after s n = none ∧ get_lines_before s n = none := by
  have hlen : ¬ s.offset + 1 ≤ (get_unoffsetted_slice s).length := by
    simp only [get_unoffsetted_slice, List.length_take, h]
    omega
  constructor
  · simp only [get_lines_after, sliceTo]
    rw [if_neg hlen]
  · simp only [get_lines_before, sliceTo]
    rw [if_neg hlen]

/-- Witness for get_lines_empty_fragment_aborts: the empty span at the end
of the buffer "ab". -/
theorem get_lines_empty_fragment_aborts_witness :
    (⟨['a', 'b'], 0, 2, 1, 0⟩ : Span).len = 0 ∧
    get_lines_after ⟨['a', 'b'], 0, 2, 1, 0⟩ 3 = none ∧
    get_lines_before ⟨['a', 'b'], 0, 2, 1, 0⟩ 3 = none :=
  ⟨rfl, get_lines_empty_fragment_aborts ⟨['a', 'b'], 0, 2, 1, 0⟩ 3 rfl⟩

/-- Counterexample to claim C8: two Expect hints at the same offset 7 come
back in reverse insertion order, not in insertion order. -/
theorem group_by_offset_reverses_ties :
    Expect.group_by_offset
        [⟨1, ⟨['a'], 0, 7, 1, 0⟩, []⟩, ⟨2, ⟨['a'], 0, 7, 1, 0⟩, []⟩] =
      [(7, [⟨2, ⟨['a'], 0, 7, 1, 0⟩, []⟩, (⟨1, ⟨['a'], 0, 7, 1, 0⟩, []⟩ : Expect Nat)])] := by
  decide

/-- Stability of the sort in `group_by_offset`: elements tied at one
offset keep their input order, so filtering the sorted list at one offset
equals filtering the input. -/
theorem insertionSort_filter_ties (l : List (Expect C)) (o : Nat) :
    (List.insertionSort offGE l).filter (fun x => decide (x.span.offset = o)) =
      l.filter (fun x => decide (x.span.offset = o)) := by
  set p : Expect C → Bool := fun x => decide (x.span.offset = o) with hp
  have hpair : (l.filter p).Pairwise offGE := by
    apply List.pairwise_of_forall_mem_list
    intro a ha b hb
    have ha' := (List.mem_filter.mp ha).2
    have hb' := (List.mem_filter.mp hb).2
    simp only [hp, decide_eq_true_eq] at ha' hb'
    simp [offGE, ha', hb']
  have hsub : List.Sublist (l.filter p) (List.insertionSort offGE l) :=
    List.sublist_insertionSort hpair (List.filter_sublist l)
  have hself : (l.filter p).filter p = l.filter p :=
    List.filter_eq_self.mpr fun a ha => (List.mem_filter.mp ha).2
  have hsub2 : List.Sublist (l.filter p) ((List.insertionSort offGE l).filter p) := by
    have h2 := hsub.filter p
    rwa [hself] at h2
  have hperm : ((List.insertionSort offGE l).filter p).length = (l.filter p).length :=
    ((List.perm_insertionSort offGE l).filter p).length_eq
  exact (hsub2.eq_of_length hperm.symm).symm

/-- Chain' is preserved by appending one more element below the last. -/
theorem chain'_concat_concat {R : Nat → Nat → Prop} (l : List Nat) (a b : Nat)
    (h : List.Chain' R (l ++ [a])) (hab : R a b) :
    List.Chain' R ((l ++ [a]) ++ [b]) := by
  rw [List.chain'_append]
  refine ⟨h, List.chain'_singleton b, ?_⟩
  intro x hx y hy
  simp only [List.getLast?_concat, Option.mem_def, Option.some.injEq] at hx
  simp only [List.head?_cons, Option.mem_def, Option.some.injEq] at hy
  subst hx; subst hy; exact hab

/-- Behaviour of `groupLoop` on a descending-sorted remainder, given the
accumulator invariants of the loop: every flushed group is non-empty with
a constant offset, group offsets are strictly descending, and the groups
concatenated restore the processed input. -/
theorem groupLoop_go (s : List (Expect C)) :
    ∀ (cur : Nat) (acc : List (Nat × List (Expect C))) (sub : List (Expect C)),
      s.Pairwise offGE →
      sub ≠ [] →
      (∀ x ∈ sub, x.span.offset = cur) →
      (∀ x ∈ s, x.span.offset ≤ cur) →
      (∀ q ∈ acc, q.2 ≠ [] ∧ ∀ x ∈ q.2, x.span.offset = q.1) →
      List.Chain' (· > ·) (acc.map Prod.fst ++ [cur]) →
      (∀ q ∈ groupLoop cur acc sub s, q.2 ≠ [] ∧ ∀ x ∈ q.2, x.span.offset = q.1) ∧
        List.Chain' (· > ·) ((groupLoop cur acc sub s).map Prod.fst) ∧
        ((groupLoop cur acc sub s).map Prod.snd).flatten =
          (acc.map Prod.snd).flatten ++ sub ++ s := by
  induction s with
  | nil =>
    intro cur acc sub _ hsub hsubo _ hacc hchain
    have hne : ¬ (sub.isEmpty = true) := by
      simpa [List.isEmpty_iff] using hsub
    rw [groupLoop, if_neg hne]
    refine ⟨?_, ?_, ?_⟩
    · intro q hq
      rcases List.mem_append.mp hq with h | h
      · exact hacc q h
      · simp only [List.mem_singleton] at h
        subst h; exact ⟨hsub, hsubo⟩
    · simpa using hchain
    · simp
  | cons e rest ih =>
    intro cur acc sub hpair hsub hsubo hso hacc hchain
    obtain ⟨hHead, hrest⟩ := List.pairwise_cons.mp hpair
    by_cases he : e.span.offset = cur
    · rw [groupLoop, if_pos he]
      have hres := ih cur acc (sub ++ [e]) hrest (by simp)
        (by
          intro x hx
          rcases List.mem_append.mp hx with h | h
          · exact hsubo x h
          · simp only [List.mem_singleton] at h; subst h; exact he)
        (fun x hx => he ▸ hHead x hx) hacc hchain
      refine ⟨hres.1, hres.2.1, ?_⟩
      rw [hres.2.2]
      simp
    · have helt : e.span.offset < cur :=
        lt_of_le_of_ne (hso e (List.mem_cons_self e rest)) he
      have hne : ¬ (sub.isEmpty = true) := by
        simpa [List.isEmpty_iff] using hsub
      rw [groupLoop, if_neg he, if_neg hne]
      have hres := ih e.span.offset (acc ++ [(cur, sub)]) [e] hrest (by simp)
        (by intro x hx; simp only [List.mem_singleton] at hx; subst hx; rfl)
        (fun x hx => hHead x hx)
        (by
          intro q hq
          rcases List.mem_append.mp hq with h | h
          · exact hacc q h
          · simp only [List.mem_singleton] at h
            subst h; exact ⟨hsub, hsubo⟩)
        (by
          have := chain'_concat_concat (acc.map Prod.fst) cur e.span.offset hchain helt
          simpa using this)
      refine ⟨hres.1, hres.2.1, ?_⟩
      rw [hres.2.2]
      simp

/-- `groupLoop` from the initial loop state, on a sorted input. -/
theorem groupLoop_sorted (s : List (Expect C)) (hs : s.Pairwise offGE) :
    (∀ q ∈ groupLoop 0 [] [] s, q.2 ≠ [] ∧ ∀ x ∈ q.2, x.span.offset = q.1) ∧
      List.Chain' (· > ·) ((groupLoop 0 [] [] s).map Prod.fst) ∧
      ((groupLoop 0 [] [] s).map Prod.snd).flatten = s := by
  cases s with
  | nil => simp [groupLoop]
  | cons e rest =>
    obtain ⟨hHead, hrest⟩ := List.pairwise_cons.mp hs
    have hgo := groupLoop_go rest e.span.offset [] [e] hrest (by simp)
      (by intro x hx; simp only [List.mem_singleton] at hx; subst hx; rfl)
      (fun x hx => hHead x hx)
      (by intro q hq; simp at hq)
      (by simpa using List.chain'_singleton e.span.offset)
    by_cases he : e.span.offset = 0
    · rw [groupLoop, if_pos he]
      simp only [List.nil_append]
      rw [he] at hgo
      refine ⟨hgo.1, hgo.2.1, ?_⟩
      rw [hgo.2.2]; simp
    · rw [groupLoop, if_neg he]
      have hne : (([] : List (Expect C)).isEmpty = true) := by simp
      rw [if_pos hne]
      refine ⟨hgo.1, hgo.2.1, ?_⟩
      rw [hgo.2.2]; simp

/-- If groups have constant offsets and strictly descending distinct group
offsets, filtering their concatenation at one group's offset recovers
exactly that group. -/
theorem groups_filter :
    ∀ (g : List (Nat × List (Expect C))),
      (∀ q ∈ g, ∀ x ∈ q.2, x.span.offset = q.1) →
      (g.map Prod.fst).Pairwise (· > ·) →
      ∀ q ∈ g, ((g.map Prod.snd).flatten).filter (fun x => decide (x.span.offset = q.1)) = q.2 := by
  intro g
  induction g with
  | nil => intro _ _ q hq; simp at hq
  | cons qh gt ih =>
    intro hgood hpair q hq
    obtain ⟨hHead, htail⟩ := List.pairwise_cons.mp hpair
    rcases List.mem_cons.mp hq with h | h
    · rw [h]
      simp only [List.map_cons, List.flatten_cons, List.filter_append]
      have h1 : qh.2.filter (fun x => decide (x.span.offset = qh.1)) = qh.2 :=
        List.filter_eq_self.mpr fun a ha => by
          simp [hgood qh (List.mem_cons_self qh gt) a ha]
      have h2 : ((gt.map Prod.snd).flatten).filter (fun x => decide (x.span.offset = qh.1)) = [] := by
        rw [List.filter_eq_nil_iff]
        intro a ha
        obtain ⟨l2, hl2, hal2⟩ := List.mem_flatten.mp ha
        obtain ⟨q2, hq2, hq2e⟩ := List.mem_map.mp hl2
        subst hq2e
        have ho := hgood q2 (List.mem_cons_of_mem qh hq2) a hal2
        have hlt : qh.1 > q2.1 := hHead q2.1 (List.mem_map_of_mem Prod.fst hq2)
        simp only [decide_eq_true_eq, ho]
        omega
      rw [h1, h2, List.append_nil]
    · simp only [List.map_cons, List.flatten_cons, List.filter_append]
      have h1 : qh.2.filter (fun x => decide (x.span.offset = q.1)) = [] := by
        rw [List.filter_eq_nil_iff]
        intro a ha
        have ho := hgood qh (List.mem_cons_self qh gt) a ha
        have hlt : qh.1 > q.1 := hHead q.1 (List.mem_map_of_mem Prod.fst h)
        simp only [decide_eq_true_eq, ho]
        omega
      rw [h1, List.nil_append]
      exact ih (fun q2 hq2 => hgood q2 (List.mem_cons_of_mem qh hq2)) htail q h

/-- Claim C8 (amended): `group_by_offset` returns non-empty groups of
hints sharing one span offset, ordered by strictly descending offset, and
within each group the hints appear in the reverse of their order in the
input list. -/
theorem group_by_offset_contract (l : List (Expect C)) :
    (∀ q ∈ Expect.group_by_offset l, q.2 ≠ [] ∧ ∀ x ∈ q.2, x.span.offset = q.1) ∧
      List.Chain' (· > ·) ((Expect.group_by_offset l).map Prod.fst) ∧
      ∀ q ∈ Expect.group_by_offset l,
        q.2 = (l.filter (fun x => decide (x.span.offset = q.1))).reverse := by
  have hs : (List.insertionSort offGE l.reverse).Pairwise offGE :=
    List.sorted_insertionSort offGE l.reverse
  obtain ⟨h1, h2, h3⟩ := groupLoop_sorted (List.insertionSort offGE l.reverse) hs
  refine ⟨h1, h2, ?_⟩
  intro q hq
  have h4 := groups_filter _ (fun q hq => (h1 q hq).2)
    ((List.chain'_iff_pairwise).mp h2) q hq
  rw [h3, insertionSort_filter_ties, List.filter_reverse] at h4
  exact h4.symm

/-- Witness for group_by_offset_contract: ten hints at three distinct
offsets give exactly three groups with strictly descending offsets, and
the theorem's intra-group characterisation instantiated at the first
group. -/
theorem group_by_offset_contract_witness :
    (Expect.group_by_offset tenExpects).map Prod.fst = [7, 5, 3] ∧
    (Expect.group_by_offset tenExpects).length = 3 ∧
    (7, [sampleExpect 10 7, sampleExpect 7 7, sampleExpect 4 7, sampleExpect 1 7]) ∈
      Expect.group_by_offset tenExpects ∧
    [sampleExpect 10 7, sampleExpect 7 7, sampleExpect 4 7, sampleExpect 1 7] =
      (tenExpects.filter (fun x => decide (x.span.offset = 7))).reverse :=
  ⟨by decide, by decide, by decide,
   (group_by_offset_contract tenExpects).2.2
     (7, [sampleExpect 10 7, sampleExpect 7 7, sampleExpect 4 7, sampleExpect 1 7])
     (by decide)⟩

/-- `enter` never panics and its exact effect: all three stacks grow by
one frame tagged with the new call stack, and an Enter entry is logged
when tracking. -/
theorem CTracer.enter_eq (tk : Bool) (t : CTracer C) (f : C) (s : Span) :
    CTracer.enter tk t f s =
      some { func := t.func ++ [f],
             track := t.track ++ (if tk then [Track.enter f s (t.func ++ [f])] else []),
             suggest := t.suggest ++ [⟨f, Usage.track, [], t.func ++ [f]⟩],
             expect := t.expect ++ [⟨f, Usage.track, [], t.func ++ [f]⟩] } := by
  cases tk <;>
    simp [CTracer.enter, CTracer.push_suggest, CTracer.push_expect, CTracer.track_enter,
      CTracer.funcLast, CTracer.parent_vec, List.getLast?_concat]

/-- Exact effect of `suggest`: the innermost Suggest frame gains one hint
tagged with the current call stack; nothing else changes. -/
theorem CTracer.suggestOp_eq (t : CTracer C) (c : C) (s : Span) (sf : SuggestTrack C)
    (hs : t.suggest.getLast? = some sf) :
    CTracer.suggestOp t c s =
      some { t with
        suggest := t.suggest.dropLast ++ [{ sf with list := sf.list ++ [⟨c, s, t.func⟩] }] } := by
  simp [CTracer.suggestOp, CTracer.add_suggest, CTracer.parent_vec, hs]

/-- `suggest` panics (`none`) without an open frame. -/
theorem CTracer.suggestOp_none (t : CTracer C) (c : C) (s : Span)
    (hs : t.suggest = []) :
    CTracer.suggestOp t c s = none := by
  simp [CTracer.suggestOp, CTracer.add_suggest, hs]

/-- Exact effect of `stash` when a frame is open (and, if tracking, a
function code is on the stack): the retired error's own code and span are
pushed as an Expect hint of the innermost Expect frame followed by the
error's Expect hints; the error's Suggest hints go to the innermost
Suggest frame; Nom hints are dropped; the function stack is unchanged;
when tracking, exactly one Expect entry is logged. -/
theorem CTracer.stash_eq (tk : Bool) (t : CTracer C) (e : ParserError C)
    (ef : ExpectTrack C) (sf : SuggestTrack C)
    (he : t.expect.getLast? = some ef) (hs : t.suggest.getLast? = some sf)
    (f : C) (hf : t.func.getLast? = some f) :
    CTracer.stash tk t e =
      some { func := t.func,
             track := t.track ++
               (if tk then [Track.expect ⟨f, Usage.track, [⟨e.code, e.span, []⟩], t.func⟩] else []),
             suggest := t.suggest.dropLast ++
               [{ sf with list := sf.list ++ suggestHints e.hints }],
             expect := t.expect.dropLast ++
               [{ ef with list := (ef.list ++ [⟨e.code, e.span, t.func⟩]) ++ expectHints e.hints }] } := by
  cases tk <;>
    simp [CTracer.stash, CTracer.add_expect, CTracer.track_expect_single, CTracer.funcLast,
      CTracer.parent_vec, hf, he, hs, List.getLast?_concat, List.dropLast_concat]

/-- `ok` without an open Expect frame panics. -/
theorem CTracer.ok_none_of_no_expect (tk : Bool) (t : CTracer C) (r s : Span)
    (he : t.expect = []) : CTracer.ok tk t r s = none := by
  cases tk
  · simp [CTracer.ok, CTracer.track_ok, CTracer.pop_expect, he]
  · cases hf : t.func.getLast? <;>
      simp [CTracer.ok, CTracer.track_ok, CTracer.pop_expect, CTracer.funcLast, hf, he]

/-- `ok` without an open Suggest frame panics. -/
theorem CTracer.ok_none_of_no_suggest (tk : Bool) (t : CTracer C) (r s : Span)
    (hs : t.suggest = []) : CTracer.ok tk t r s = none := by
  cases tk
  · cases he : t.expect.getLast?
    · simp [CTracer.ok, CTracer.track_ok, CTracer.pop_expect, he]
    · rename_i ef
      cases hl : ef.list <;>
        simp [CTracer.ok, CTracer.track_ok, CTracer.pop_expect, CTracer.track_expect,
          CTracer.pop_suggest, he, hs, hl]
  · cases hf : t.func.getLast?
    · simp [CTracer.ok, CTracer.track_ok, CTracer.funcLast, hf]
    · cases he : t.expect.getLast?
      · simp [CTracer.ok, CTracer.track_ok, CTracer.funcLast, hf, CTracer.pop_expect, he]
      · rename_i f ef
        cases hl : ef.list <;>
          simp [CTracer.ok, CTracer.track_ok, CTracer.funcLast, hf, CTracer.pop_expect,
            CTracer.track_expect, CTracer.pop_suggest, he, hs, hl]

/-- Exact effect of `ok` resolving the outermost frame: the popped
Suggest frame is pushed back, so the Suggest stack keeps one frame. -/
theorem CTracer.ok_eq_top (tk : Bool) (t : CTracer C) (r s : Span)
    (ef : ExpectTrack C) (sf : SuggestTrack C) (f : C)
    (hf : t.func.getLast? = some f) (he : t.expect.getLast? = some ef)
    (hs : t.suggest.getLast? = some sf) (hTop : t.suggest.dropLast = []) :
    ∃ tr, CTracer.ok tk t r s =
      some { func := t.func.dropLast, track := t.track ++ tr,
             suggest := [sf], expect := t.expect.dropLast } := by
  cases tk
  · refine ⟨[], ?_⟩
    cases hl : ef.list <;>
      simp [CTracer.ok, CTracer.track_ok, CTracer.pop_expect, CTracer.track_expect,
        CTracer.pop_suggest, CTracer.append_suggest, CTracer.track_exit, CTracer.funcLast,
        CTracer.parent_vec, he, hs, hTop, hl]
  · cases hl : ef.list
    · refine ⟨[Track.ok f s r t.func, Track.exit f t.func], ?_⟩
      simp [CTracer.ok, CTracer.track_ok, CTracer.pop_expect, CTracer.track_expect,
        CTracer.pop_suggest, CTracer.append_suggest, CTracer.track_exit, CTracer.funcLast,
        CTracer.parent_vec, hf, he, hs, hTop, hl]
    · refine ⟨[Track.ok f s r t.func, Track.expect ⟨f, Usage.drop, ef.list, t.func⟩,
        Track.exit f t.func], ?_⟩
      simp [CTracer.ok, CTracer.track_ok, CTracer.pop_expect, CTracer.track_expect,
        CTracer.pop_suggest, CTracer.append_suggest, CTracer.track_exit, CTracer.funcLast,
        CTracer.parent_vec, hf, he, hs, hTop, hl]

/-- Exact effect of `ok` resolving a nested frame: the popped Suggest
frame's hints merge into the enclosing Suggest frame. -/
theorem CTracer.ok_eq_nested (tk : Bool) (t : CTracer C) (r s : Span)
    (ef : ExpectTrack C) (sf sf2 : SuggestTrack C) (f : C)
    (hf : t.func.getLast? = some f) (he : t.expect.getLast? = some ef)
    (hs : t.suggest.getLast? = some sf) (hs2 : t.suggest.dropLast.getLast? = some sf2) :
    ∃ tr, CTracer.ok tk t r s =
      some { func := t.func.dropLast, track := t.track ++ tr,
             suggest := t.suggest.dropLast.dropLast ++ [{ sf2 with list := sf2.list ++ sf.list }],
             expect := t.expect.dropLast } := by
  have hne : ¬ (t.suggest.dropLast.isEmpty = true) := by
    simp only [List.isEmpty_iff]
    intro hcon
    rw [hcon] at hs2
    simp at hs2
  cases tk
  · refine ⟨[], ?_⟩
    cases hl : ef.list <;>
      simp [CTracer.ok, CTracer.track_ok, CTracer.pop_expect, CTracer.track_expect,
        CTracer.pop_suggest, CTracer.append_suggest, CTracer.track_exit, CTracer.funcLast,
        CTracer.parent_vec, he, hs, hs2, hne, hl]
  · cases hl : ef.list
    · refine ⟨[Track.ok f s r t.func, Track.exit f t.func], ?_⟩
      simp [CTracer.ok, CTracer.track_ok, CTracer.pop_expect, CTracer.track_expect,
        CTracer.pop_suggest, CTracer.append_suggest, CTracer.track_exit, CTracer.funcLast,
        CTracer.parent_vec, hf, he, hs, hs2, hne, hl]
    · refine ⟨[Track.ok f s r t.func, Track.expect ⟨f, Usage.drop, ef.list, t.func⟩,
        Track.exit f t.func], ?_⟩
      simp [CTracer.ok, CTracer.track_ok, CTracer.pop_expect, CTracer.track_expect,
        CTracer.pop_suggest, CTracer.append_suggest, CTracer.track_exit, CTracer.funcLast,
        CTracer.parent_vec, hf, he, hs, hs2, hne, hl]

/-- `err` without an open Expect frame panics. -/
theorem CTracer.err_none_of_no_expect (tk : Bool) (t : CTracer C) (e : ParserError C)
    (he : t.expect = []) : CTracer.err tk t e = none := by
  simp [CTracer.err, CTracer.pop_expect, he]

/-- `err` without an open Suggest frame panics. -/
theorem CTracer.err_none_of_no_suggest (tk : Bool) (t : CTracer C) (e : ParserError C)
    (hs : t.suggest = []) : CTracer.err tk t e = none := by
  cases tk
  · cases he : t.expect.getLast?
    · simp [CTracer.err, CTracer.pop_expect, he]
    · rename_i ef
      cases hl : ef.list <;>
        simp [CTracer.err, CTracer.pop_expect, CTracer.track_expect, CTracer.pop_suggest,
          he, hs, hl]
  · cases he : t.expect.getLast?
    · simp [CTracer.err, CTracer.pop_expect, he]
    · rename_i ef
      cases hf : t.func.getLast? <;> cases hl : ef.list <;>
        simp [CTracer.err, CTracer.pop_expect, CTracer.track_expect, CTracer.pop_suggest,
          CTracer.funcLast, hf, he, hs, hl]

/-- Exact effect of `err`: the returned error keeps the incoming code and
span, has the seen-flag set, and gains exactly the popped Expect frame's
hints followed by the popped Suggest frame's hints; all three stacks
shrink by one frame. -/
theorem CTracer.err_eq (tk : Bool) (t : CTracer C) (e : ParserError C)
    (ef : ExpectTrack C) (sf : SuggestTrack C) (f : C)
    (hf : t.func.getLast? = some f) (he : t.expect.getLast? = some ef)
    (hs : t.suggest.getLast? = some sf) :
    ∃ tr, CTracer.err tk t e =
      some ({ func := t.func.dropLast, track := t.track ++ tr,
              suggest := t.suggest.dropLast, expect := t.expect.dropLast },
            { code := e.code, span := e.span, tracing := true,
              hints := (e.hints ++ ef.list.map Hints.expect) ++ sf.list.map Hints.suggest }) := by
  have he1 : (if e.tracing then e else { e with tracing := true }) =
      { e with tracing := true } := by
    obtain ⟨c, sp, trc, hnts⟩ := e
    cases trc <;> simp
  cases tk
  · refine ⟨[], ?_⟩
    simp [CTracer.err, he1, CTracer.pop_expect, CTracer.track_expect, CTracer.pop_suggest,
      CTracer.track_suggest, CTracer.track_error, CTracer.track_exit, he, hs,
      ParserError.append_expect, ParserError.append_suggest]
  · cases hl : ef.list <;> cases hsl : sf.list
    · refine ⟨[Track.err f e.span
        { code := e.code, span := e.span, tracing := true,
          hints := (e.hints ++ ef.list.map Hints.expect) ++ sf.list.map Hints.suggest } t.func,
        Track.exit f t.func], ?_⟩
      simp [CTracer.err, he1, CTracer.pop_expect, CTracer.track_expect, CTracer.pop_suggest,
        CTracer.track_suggest, CTracer.track_error, CTracer.track_exit, CTracer.funcLast,
        CTracer.parent_vec, hf, he, hs, hl, hsl,
        ParserError.append_expect, ParserError.append_suggest]
    · refine ⟨[Track.suggest ⟨f, Usage.use, sf.list, t.func⟩,
        Track.err f e.span
          { code := e.code, span := e.span, tracing := true,
            hints := (e.hints ++ ef.list.map Hints.expect) ++ sf.list.map Hints.suggest } t.func,
        Track.exit f t.func], ?_⟩
      simp [CTracer.err, he1, CTracer.pop_expect, CTracer.track_expect, CTracer.pop_suggest,
        CTracer.track_suggest, CTracer.track_error, CTracer.track_exit, CTracer.funcLast,
        CTracer.parent_vec, hf, he, hs, hl, hsl,
        ParserError.append_expect, ParserError.append_suggest]
    · refine ⟨[Track.expect ⟨f, Usage.use, ef.list, t.func⟩,
        Track.err f e.span
          { code := e.code, span := e.span, tracing := true,
            hints := (e.hints ++ ef.list.map Hints.expect) ++ sf.list.map Hints.suggest } t.func,
        Track.exit f t.func], ?_⟩
      simp [CTracer.err, he1, CTracer.pop_expect, CTracer.track_expect, CTracer.pop_suggest,
        CTracer.track_suggest, CTracer.track_error, CTracer.track_exit, CTracer.funcLast,
        CTracer.parent_vec, hf, he, hs, hl, hsl,
        ParserError.append_expect, ParserError.append_suggest]
    · refine ⟨[Track.expect ⟨f, Usage.use, ef.list, t.func⟩,
        Track.suggest ⟨f, Usage.use, sf.list, t.func⟩,
        Track.err f e.span
          { code := e.code, span := e.span, tracing := true,
            hints := (e.hints ++ ef.list.map Hints.expect) ++ sf.list.map Hints.suggest } t.func,
        Track.exit f t.func], ?_⟩
      simp [CTracer.err, he1, CTracer.pop_expect, CTracer.track_expect, CTracer.pop_suggest,
        CTracer.track_suggest, CTracer.track_error, CTracer.track_exit, CTracer.funcLast,
        CTracer.parent_vec, hf, he, hs, hl, hsl,
        ParserError.append_expect, ParserError.append_suggest]

/-- `stash` without an open Expect frame panics. -/
theorem CTracer.stash_none_of_no_expect (tk : Bool) (t : CTracer C) (e : ParserError C)
    (he : t.expect = []) : CTracer.stash tk t e = none := by
  cases tk
  · simp [CTracer.stash, CTracer.add_expect, CTracer.track_expect_single, he]
  · cases hf : t.func.getLast? <;>
      simp [CTracer.stash, CTracer.add_expect, CTracer.track_expect_single, CTracer.funcLast,
        hf, he]

/-- `stash` without an open Suggest frame panics. -/
theorem CTracer.stash_none_of_no_suggest (tk : Bool) (t : CTracer C) (e : ParserError C)
    (hs : t.suggest = []) : CTracer.stash tk t e = none := by
  cases tk
  · cases he : t.expect.getLast? <;>
      simp [CTracer.stash, CTracer.add_expect, CTracer.track_expect_single, he, hs,
        List.getLast?_concat, List.dropLast_concat]
  · cases hf : t.func.getLast?
    · simp [CTracer.stash, CTracer.add_expect, CTracer.track_expect_single, CTracer.funcLast, hf]
    · cases he : t.expect.getLast? <;>
        simp [CTracer.stash, CTracer.add_expect, CTracer.track_expect_single, CTracer.funcLast,
          hf, he, hs, List.getLast?_concat, List.dropLast_concat]

/-- A non-empty list has a last element. -/
theorem getLast?_some_of_ne_nil {α : Type} (l : List α) (h : l ≠ []) :
    ∃ a, l.getLast? = some a := by
  cases hl : l.getLast? with
  | some a => exact ⟨a, rfl⟩
  | none => exact absurd (List.getLast?_eq_none_iff.mp hl) h

/-- Each tracer operation preserves the balance invariant. -/
theorem stepOp_inv (tk : Bool) (t t' : CTracer C) (op : TOp C)
    (hInv : framesInv t) (h : stepOp tk t op = some t') : framesInv t' := by
  obtain ⟨hE, hS⟩ := hInv
  cases op with
  | enter f s =>
    simp only [stepOp, CTracer.enter_eq, Option.some.injEq] at h
    subst h
    constructor <;> simp <;> omega
  | suggest c s =>
    by_cases hsnil : t.suggest = []
    · rw [stepOp, CTracer.suggestOp_none t c s hsnil] at h
      cases h
    · obtain ⟨sf, hsf⟩ := getLast?_some_of_ne_nil _ hsnil
      have hpos : 0 < t.suggest.length := List.length_pos.mpr hsnil
      rw [stepOp, CTracer.suggestOp_eq t c s sf hsf] at h
      cases h
      constructor <;> simp [List.length_dropLast] <;> omega
  | stash e =>
    by_cases henil : t.expect = []
    · rw [stepOp, CTracer.stash_none_of_no_expect tk t e henil] at h
      cases h
    · by_cases hsnil : t.suggest = []
      · rw [stepOp, CTracer.stash_none_of_no_suggest tk t e hsnil] at h
        cases h
      · obtain ⟨ef, hef⟩ := getLast?_some_of_ne_nil _ henil
        obtain ⟨sf, hsf⟩ := getLast?_some_of_ne_nil _ hsnil
        have hepos : 0 < t.expect.length := List.length_pos.mpr henil
        have hspos : 0 < t.suggest.length := List.length_pos.mpr hsnil
        have hfnil : t.func ≠ [] := by
          intro hcon
          rw [hcon] at hE
          simp only [List.length_nil] at hE
          omega
        obtain ⟨f, hff⟩ := getLast?_some_of_ne_nil _ hfnil
        rw [stepOp, CTracer.stash_eq tk t e ef sf hef hsf f hff] at h
        cases h
        constructor <;> simp [List.length_dropLast] <;> omega
  | ok r s =>
    by_cases henil : t.expect = []
    · rw [stepOp, CTracer.ok_none_of_no_expect tk t r s henil] at h
      cases h
    · by_cases hsnil : t.suggest = []
      · rw [stepOp, CTracer.ok_none_of_no_suggest tk t r s hsnil] at h
        cases h
      · obtain ⟨ef, hef⟩ := getLast?_some_of_ne_nil _ henil
        obtain ⟨sf, hsf⟩ := getLast?_some_of_ne_nil _ hsnil
        have hepos : 0 < t.expect.length := List.length_pos.mpr henil
        have hspos : 0 < t.suggest.length := List.length_pos.mpr hsnil
        have hfnil : t.func ≠ [] := by
          intro hcon
          rw [hcon] at hE
          simp only [List.length_nil] at hE
          omega
        obtain ⟨f, hff⟩ := getLast?_some_of_ne_nil _ hfnil
        have hfpos : 0 < t.func.length := List.length_pos.mpr hfnil
        by_cases htop : t.suggest.dropLast = []
        · obtain ⟨tr, hok⟩ := CTracer.ok_eq_top tk t r s ef sf f hff hef hsf htop
          rw [stepOp, hok] at h
          cases h
          have hs1 : t.suggest.length = 1 := by
            have := List.length_dropLast t.suggest
            rw [htop] at this
            simp at this
            omega
          constructor <;> simp [List.length_dropLast] <;> omega
        · obtain ⟨sf2, hsf2⟩ := getLast?_some_of_ne_nil _ htop
          have hs2 : 2 ≤ t.suggest.length := by
            have h1 := List.length_pos.mpr htop
            have h2 := List.length_dropLast t.suggest
            omega
          obtain ⟨tr, hok⟩ := CTracer.ok_eq_nested tk t r s ef sf sf2 f hff hef hsf hsf2
          rw [stepOp, hok] at h
          cases h
          constructor <;> simp [List.length_dropLast] <;> omega
  | err e =>
    by_cases henil : t.expect = []
    · rw [stepOp, CTracer.err_none_of_no_expect tk t e henil] at h
      simp at h
    · by_cases hsnil : t.suggest = []
      · rw [stepOp, CTracer.err_none_of_no_suggest tk t e hsnil] at h
        simp at h
      · obtain ⟨ef, hef⟩ := getLast?_some_of_ne_nil _ henil
        obtain ⟨sf, hsf⟩ := getLast?_some_of_ne_nil _ hsnil
        have hepos : 0 < t.expect.length := List.length_pos.mpr henil
        have hspos : 0 < t.suggest.length := List.length_pos.mpr hsnil
        have hfnil : t.func ≠ [] := by
          intro hcon
          rw [hcon] at hE
          simp only [List.length_nil] at hE
          omega
        obtain ⟨f, hff⟩ := getLast?_some_of_ne_nil _ hfnil
        obtain ⟨tr, herr⟩ := CTracer.err_eq tk t e ef sf f hff hef hsf
        rw [stepOp, herr] at h
        simp only [Option.map_some', Option.some.injEq] at h
        subst h
        constructor <;> simp [List.length_dropLast] <;> omega

/-- Running a history preserves the balance invariant. -/
theorem execOps_inv (tk : Bool) :
    ∀ (ops : List (TOp C)) (t t' : CTracer C),
      framesInv t → execOps tk t ops = some t' → framesInv t'
  | [], t, t', hInv, h => by
    simp only [execOps, Option.some.injEq] at h
    exact h ▸ hInv
  | op :: ops, t, t', hInv, h => by
    rw [execOps] at h
    cases hstep : stepOp tk t op with
    | none => rw [hstep] at h; cases h
    | some t1 =>
      rw [hstep] at h
      exact execOps_inv tk ops t1 t' (stepOp_inv tk t t1 op hInv hstep) h

/-- Counterexample to claim C1: after `enter` followed by the outermost
`ok` from `CTracer::new`, the function-code and Expect stacks are empty
but the Suggest stack still holds one frame, so the three depths are not
all equal. -/
theorem ctracer_outermost_ok_unbalanced :
    (execOps true (CTracer.new (C := Nat)) [TOp.enter 7 sampleSpan, TOp.ok sampleSpan sampleSpan]).map
        (fun t => (t.func.length, t.expect.length, t.suggest.length)) =
      some (0, 0, 1) := by
  rfl

/-- Claim C1 (amended): for every operation history from `CTracer::new`
that completes without a contract panic, the Expect stack depth equals
the function-code stack depth, and the Suggest stack depth equals it or
exceeds it by exactly one (the excess frame is the one pushed back when
an outermost frame resolves via `ok`). -/
theorem ctracer_frame_balance (tk : Bool) (ops : List (TOp C)) (t : CTracer C)
    (h : execOps tk CTracer.new ops = some t) :
    t.expect.length = t.func.length ∧
      (t.suggest.length = t.func.length ∨ t.suggest.length = t.func.length + 1) :=
  execOps_inv tk ops CTracer.new t (by constructor <;> simp [CTracer.new]) h

/-- Witness for ctracer_frame_balance at the concrete history
`[enter 7, ok]`. -/
theorem ctracer_frame_balance_witness :
    execOps true CTracer.new [TOp.enter 7 sampleSpan, TOp.ok sampleSpan sampleSpan] =
      some sampleBalState ∧
    (sampleBalState.expect.length = sampleBalState.func.length ∧
      (sampleBalState.suggest.length = sampleBalState.func.length ∨
        sampleBalState.suggest.length = sampleBalState.func.length + 1)) :=
  ⟨rfl,
   ctracer_frame_balance true [TOp.enter 7 sampleSpan, TOp.ok sampleSpan sampleSpan]
     sampleBalState rfl⟩

/-- Claim C7: with a current frame open, `err` returns an error carrying
exactly the incoming code and span; it only sets the seen-flag and
appends Expect and Suggest hints, never re-stamping the code with the
enclosing frame's code. -/
theorem ctracer_err_preserves_code_span (tk : Bool) (t : CTracer C) (e : ParserError C)
    (hfr : t.func ≠ [] ∧ t.expect ≠ [] ∧ t.suggest ≠ []) :
    ∃ t' e', CTracer.err tk t e = some (t', e') ∧
      e'.code = e.code ∧ e'.span = e.span ∧ e'.tracing = true ∧
      ∃ (l1 : List (Expect C)) (l2 : List (Suggest C)),
        e'.hints = e.hints ++ l1.map Hints.expect ++ l2.map Hints.suggest := by
  obtain ⟨hf, he, hs⟩ := hfr
  obtain ⟨f, hff⟩ := getLast?_some_of_ne_nil _ hf
  obtain ⟨ef, hef⟩ := getLast?_some_of_ne_nil _ he
  obtain ⟨sf, hsf⟩ := getLast?_some_of_ne_nil _ hs
  obtain ⟨tr, herr⟩ := CTracer.err_eq tk t e ef sf f hff hef hsf
  exact ⟨_, _, herr, rfl, rfl, rfl, ef.list, sf.list, rfl⟩

/-- Witness for ctracer_err_preserves_code_span on a one-frame state. -/
theorem ctracer_err_preserves_code_span_witness :
    (sampleFrameState.func ≠ [] ∧ sampleFrameState.expect ≠ [] ∧
      sampleFrameState.suggest ≠ []) ∧
    ∃ t' e', CTracer.err true sampleFrameState (ParserError.new 5 sampleSpan) = some (t', e') ∧
      e'.code = (ParserError.new 5 sampleSpan).code ∧
      e'.span = (ParserError.new 5 sampleSpan).span ∧ e'.tracing = true ∧
      ∃ (l1 : List (Expect Nat)) (l2 : List (Suggest Nat)),
        e'.hints = (ParserError.new 5 sampleSpan).hints ++
          l1.map Hints.expect ++ l2.map Hints.suggest :=
  ⟨by decide,
   ctracer_err_preserves_code_span true sampleFrameState (ParserError.new 5 sampleSpan)
     (by decide)⟩

/-- Counterexample to claim C6: `err` on a fresh error (seen-flag false)
inside a single frame with empty accumulators returns an error whose hint
list is empty: the error's own code and span are not recorded as an
Expect hint (that code is commented out in the source). -/
theorem ctracer_err_no_own_expect_hint :
    ((CTracer.enter true (CTracer.new (C := Nat)) 7 sampleSpan).bind
        (fun t => CTracer.err true t (ParserError.new 5 sampleSpan))).map
        (fun p => (p.2.tracing, p.2.hints)) = some (true, []) := by
  rfl

/-- Claim C6 (amended): `err` marks the seen-flag true, but records no
Expect hint for the error's own code and span in either case; the hints
appended are exactly the popped frame's collected Expect and Suggest
hints. -/
theorem ctracer_err_seen_flag (tk : Bool) (t : CTracer C) (e : ParserError C)
    (ef : ExpectTrack C) (sf : SuggestTrack C) (f : C)
    (hff : t.func.getLast? = some f) (hef : t.expect.getLast? = some ef)
    (hsf : t.suggest.getLast? = some sf) :
    ∃ t' e', CTracer.err tk t e = some (t', e') ∧ e'.tracing = true ∧
      e'.hints = (e.hints ++ ef.list.map Hints.expect) ++ sf.list.map Hints.suggest := by
  obtain ⟨tr, herr⟩ := CTracer.err_eq tk t e ef sf f hff hef hsf
  exact ⟨_, _, herr, rfl, rfl⟩

/-- Witness for ctracer_err_seen_flag on a one-frame state with empty
accumulators: the result's hint list stays empty. -/
theorem ctracer_err_seen_flag_witness :
    ∃ t' e', CTracer.err true sampleFrameState (ParserError.new 5 sampleSpan) = some (t', e') ∧
      e'.tracing = true ∧
      e'.hints = ((ParserError.new 5 sampleSpan).hints ++
        List.map Hints.expect (⟨7, Usage.track, [], [7]⟩ : ExpectTrack Nat).list) ++
        List.map Hints.suggest (⟨7, Usage.track, [], [7]⟩ : SuggestTrack Nat).list :=
  ctracer_err_seen_flag true sampleFrameState (ParserError.new 5 sampleSpan)
    ⟨7, Usage.track, [], [7]⟩ ⟨7, Usage.track, [], [7]⟩ 7 rfl rfl rfl

/-- Counterexample to claim C5: `stash` on the full-tracking tracer also
appends one entry to the trace log, so the Expect/Suggest frame updates
are not the only state change. -/
theorem ctracer_stash_logs_track_entry :
    ((CTracer.enter true (CTracer.new (C := Nat)) 7 sampleSpan).map
        (fun t => t.track.length) = some 1) ∧
    (((CTracer.enter true (CTracer.new (C := Nat)) 7 sampleSpan).bind
        (fun t => CTracer.stash true t (ParserError.new 5 sampleSpan))).map
        (fun t => t.track.length) = some 2) :=
  ⟨rfl, rfl⟩

/-- Claim C5 (amended): `stash` records the error's code and span as an
Expect hint of the current Expect frame, appends the error's Expect hints
there and its Suggest hints to the current Suggest frame, discards Nom
hints, and leaves the rest of the tracer state unchanged except that,
when tracking is enabled, one Expect entry is appended to the trace
log. -/
theorem ctracer_stash_effect (tk : Bool) (t : CTracer C) (e : ParserError C)
    (ef : ExpectTrack C) (sf : SuggestTrack C) (f : C)
    (hff : t.func.getLast? = some f) (hef : t.expect.getLast? = some ef)
    (hsf : t.suggest.getLast? = some sf) :
    ∃ t', CTracer.stash tk t e = some t' ∧
      t'.func = t.func ∧
      t'.expect = t.expect.dropLast ++
        [{ ef with list := (ef.list ++ [⟨e.code, e.span, t.func⟩]) ++ expectHints e.hints }] ∧
      t'.suggest = t.suggest.dropLast ++
        [{ sf with list := sf.list ++ suggestHints e.hints }] ∧
      t'.track = t.track ++
        (if tk then [Track.expect ⟨f, Usage.track, [⟨e.code, e.span, []⟩], t.func⟩] else []) :=
  ⟨_, CTracer.stash_eq tk t e ef sf hef hsf f hff, rfl, rfl, rfl, rfl⟩

/-- Witness for ctracer_stash_effect on a one-frame state. -/
theorem ctracer_stash_effect_witness :
    ∃ t', CTracer.stash true sampleFrameState (ParserError.new 5 sampleSpan) = some t' ∧
      t'.func = sampleFrameState.func ∧
      t'.expect = sampleFrameState.expect.dropLast ++
        [{ (⟨7, Usage.track, [], [7]⟩ : ExpectTrack Nat) with
            list := (([] : List (Expect Nat)) ++ [⟨(ParserError.new 5 sampleSpan).code,
              (ParserError.new 5 sampleSpan).span, [7]⟩]) ++
              expectHints (ParserError.new 5 sampleSpan).hints }] ∧
      t'.suggest = sampleFrameState.suggest.dropLast ++
        [{ (⟨7, Usage.track, [], [7]⟩ : SuggestTrack Nat) with
            list := ([] : List (Suggest Nat)) ++
              suggestHints (ParserError.new 5 sampleSpan).hints }] ∧
      t'.track = sampleFrameState.track ++
        (if true then [Track.expect ⟨7, Usage.track,
          [⟨(ParserError.new 5 sampleSpan).code, (ParserError.new 5 sampleSpan).span, []⟩],
          [7]⟩] else []) :=
  ctracer_stash_effect true sampleFrameState (ParserError.new 5 sampleSpan)
    ⟨7, Usage.track, [], [7]⟩ ⟨7, Usage.track, [], [7]⟩ 7 rfl rfl rfl

/-- An index with a value is in range. -/
theorem lt_of_getElem?_some {α : Type} {l : List α} {p : Nat} {a : α}
    (h : l[p]? = some a) : p < l.length := by
  by_contra hc
  push_neg at hc
  rw [List.getElem?_eq_none hc] at h
  cases h

/-- Indexing below the last element passes through `dropLast`. -/
theorem getElem?_dropLast_of_lt {α : Type} (l : List α) (p : Nat) (h : p + 1 < l.length) :
    l.dropLast[p]? = l[p]? := by
  have hne : l ≠ [] := by intro hc; subst hc; simp at h
  obtain ⟨a, ha⟩ := getLast?_some_of_ne_nil l hne
  conv_rhs => rw [← List.dropLast_append_getLast? a ha]
  rw [List.getElem?_append_left]
  rw [List.length_dropLast]
  omega

/-- The last element by index. -/
theorem getElem?_last_of_getLast? {α : Type} (l : List α) (a : α) (h : l.getLast? = some a) :
    l[l.length - 1]? = some a := by
  rw [← List.getLast?_eq_getElem?]
  exact h

/-- One tracer operation cannot remove a Suggest hint from a frame that
stays on the stack: if frame `p` holds hint `X` and the operation leaves
at least `p + 1` Suggest frames, frame `p` still holds `X` afterwards. -/
theorem stepOp_suggest_preserve (tk : Bool) (t u : CTracer C) (op : TOp C) (p : Nat)
    (hInv : framesInv t) (h : stepOp tk t op = some u)
    (fr : SuggestTrack C) (hfr : t.suggest[p]? = some fr)
    (X : Suggest C) (hX : X ∈ fr.list) (hlen : p + 1 ≤ u.suggest.length) :
    ∃ fr', u.suggest[p]? = some fr' ∧ X ∈ fr'.list := by
  have hplt : p < t.suggest.length := lt_of_getElem?_some hfr
  have hsnil : t.suggest ≠ [] := by
    intro hc
    rw [hc] at hplt
    simp at hplt
  obtain ⟨sf, hsf⟩ := getLast?_some_of_ne_nil _ hsnil
  cases op with
  | enter f s =>
    simp only [stepOp, CTracer.enter_eq, Option.some.injEq] at h
    subst h
    refine ⟨fr, ?_, hX⟩
    show (t.suggest ++ [⟨f, Usage.track, [], t.func ++ [f]⟩])[p]? = some fr
    rw [List.getElem?_append_left hplt]
    exact hfr
  | suggest c s =>
    rw [stepOp, CTracer.suggestOp_eq t c s sf hsf] at h
    simp only [Option.some.injEq] at h
    subst h
    by_cases hpe : p + 1 = t.suggest.length
    · have hlast : t.suggest[p]? = some sf := by
        have hl := getElem?_last_of_getLast? _ _ hsf
        rwa [show t.suggest.length - 1 = p by omega] at hl
      have hfs : fr = sf := by
        rw [hfr] at hlast
        exact Option.some.inj hlast
      refine ⟨{ sf with list := sf.list ++ [⟨c, s, t.func⟩] }, ?_, ?_⟩
      · show (t.suggest.dropLast ++ [_])[p]? = some _
        have hp' : p = t.suggest.dropLast.length := by
          rw [List.length_dropLast]
          omega
        rw [hp']
        exact List.getElem?_concat_length _ _
      · exact List.mem_append.mpr (Or.inl (hfs ▸ hX))
    · refine ⟨fr, ?_, hX⟩
      show (t.suggest.dropLast ++ [_])[p]? = some fr
      rw [List.getElem?_append_left (by rw [List.length_dropLast]; omega)]
      rw [getElem?_dropLast_of_lt _ _ (by omega)]
      exact hfr
  | stash e =>
    have henil : t.expect ≠ [] := by
      intro hc
      rw [stepOp, CTracer.stash_none_of_no_expect tk t e hc] at h
      cases h
    have hfnil : t.func ≠ [] := by
      intro hc
      obtain ⟨hE, _⟩ := hInv
      have hp := List.length_pos.mpr henil
      rw [hc] at hE
      simp only [List.length_nil] at hE
      omega
    obtain ⟨ef, hef⟩ := getLast?_some_of_ne_nil _ henil
    obtain ⟨f, hff⟩ := getLast?_some_of_ne_nil _ hfnil
    rw [stepOp, CTracer.stash_eq tk t e ef sf hef hsf f hff] at h
    simp only [Option.some.injEq] at h
    subst h
    by_cases hpe : p + 1 = t.suggest.length
    · have hlast : t.suggest[p]? = some sf := by
        have hl := getElem?_last_of_getLast? _ _ hsf
        rwa [show t.suggest.length - 1 = p by omega] at hl
      have hfs : fr = sf := by
        rw [hfr] at hlast
        exact Option.some.inj hlast
      refine ⟨{ sf with list := sf.list ++ suggestHints e.hints }, ?_, ?_⟩
      · show (t.suggest.dropLast ++ [_])[p]? = some _
        have hp' : p = t.suggest.dropLast.length := by
          rw [List.length_dropLast]
          omega
        rw [hp']
        exact List.getElem?_concat_length _ _
      · exact List.mem_append.mpr (Or.inl (hfs ▸ hX))
    · refine ⟨fr, ?_, hX⟩
      show (t.suggest.dropLast ++ [_])[p]? = some fr
      rw [List.getElem?_append_left (by rw [List.length_dropLast]; omega)]
      rw [getElem?_dropLast_of_lt _ _ (by omega)]
      exact hfr
  | ok r s2 =>
    have henil : t.expect ≠ [] := by
      intro hc
      rw [stepOp, CTracer.ok_none_of_no_expect tk t r s2 hc] at h
      cases h
    have hfnil : t.func ≠ [] := by
      intro hc
      obtain ⟨hE, _⟩ := hInv
      have hp := List.length_pos.mpr henil
      rw [hc] at hE
      simp only [List.length_nil] at hE
      omega
    obtain ⟨ef, hef⟩ := getLast?_some_of_ne_nil _ henil
    obtain ⟨f, hff⟩ := getLast?_some_of_ne_nil _ hfnil
    by_cases htop : t.suggest.dropLast = []
    · obtain ⟨tr, hok⟩ := CTracer.ok_eq_top tk t r s2 ef sf f hff hef hsf htop
      rw [stepOp, hok] at h
      simp only [Option.some.injEq] at h
      subst h
      have hts : t.suggest = [sf] := by
        have hd := List.dropLast_append_getLast? sf hsf
        rw [htop] at hd
        simpa using hd.symm
      have hp0 : p = 0 := by
        rw [hts] at hplt
        simp at hplt
        omega
      have hfs : fr = sf := by
        rw [hts, hp0] at hfr
        simpa using hfr.symm
      exact ⟨sf, by simp [hp0], hfs ▸ hX⟩
    · obtain ⟨sf2, hsf2⟩ := getLast?_some_of_ne_nil _ htop
      obtain ⟨tr, hok⟩ := CTracer.ok_eq_nested tk t r s2 ef sf sf2 f hff hef hsf hsf2
      rw [stepOp, hok] at h
      simp only [Option.some.injEq] at h
      subst h
      have hd2 : t.suggest.dropLast.dropLast.length = t.suggest.length - 2 := by
        simp only [List.length_dropLast]
        omega
      have hlen' : p ≤ t.suggest.length - 2 := by
        simpa [List.length_dropLast, hd2] using hlen
      have hs2 : 2 ≤ t.suggest.length := by
        have h1 := List.length_pos.mpr htop
        have h2 := List.length_dropLast t.suggest
        omega
      by_cases hpd : p = t.suggest.dropLast.dropLast.length
      · have hlast : t.suggest[p]? = some sf2 := by
          have hl := getElem?_last_of_getLast? _ _ hsf2
          rw [show t.suggest.dropLast.length - 1 = p by rw [List.length_dropLast]; omega] at hl
          rwa [getElem?_dropLast_of_lt _ _ (by omega)] at hl
        have hfs : fr = sf2 := by
          rw [hfr] at hlast
          exact Option.some.inj hlast
        refine ⟨{ sf2 with list := sf2.list ++ sf.list }, ?_, ?_⟩
        · show (t.suggest.dropLast.dropLast ++ [_])[p]? = some _
          rw [hpd]
          exact List.getElem?_concat_length _ _
        · exact List.mem_append.mpr (Or.inl (hfs ▸ hX))
      · have hplt2 : p < t.suggest.dropLast.dropLast.length := by omega
        refine ⟨fr, ?_, hX⟩
        show (t.suggest.dropLast.dropLast ++ [_])[p]? = some fr
        rw [List.getElem?_append_left hplt2]
        rw [getElem?_dropLast_of_lt _ _ (by rw [List.length_dropLast]; omega)]
        rw [getElem?_dropLast_of_lt _ _ (by omega)]
        exact hfr
  | err e =>
    have henil : t.expect ≠ [] := by
      intro hc
      rw [stepOp, CTracer.err_none_of_no_expect tk t e hc] at h
      cases h
    have hfnil : t.func ≠ [] := by
      intro hc
      obtain ⟨hE, _⟩ := hInv
      have hp := List.length_pos.mpr henil
      rw [hc] at hE
      simp only [List.length_nil] at hE
      omega
    obtain ⟨ef, hef⟩ := getLast?_some_of_ne_nil _ henil
    obtain ⟨f, hff⟩ := getLast?_some_of_ne_nil _ hfnil
    obtain ⟨tr, herr⟩ := CTracer.err_eq tk t e ef sf f hff hef hsf
    rw [stepOp, herr] at h
    simp only [Option.map_some', Option.some.injEq] at h
    subst h
    refine ⟨fr, ?_, hX⟩
    show t.suggest.dropLast[p]? = some fr
    have hlen' : p + 1 ≤ t.suggest.dropLast.length := hlen
    rw [List.length_dropLast] at hlen'
    rw [getElem?_dropLast_of_lt _ _ (by omega)]
    exact hfr

/-- Running further operations cannot remove a Suggest hint from frame
`p` as long as every intermediate state keeps more than `p` Suggest
frames. -/
theorem execOps_suggest_preserve (tk : Bool) (p : Nat) :
    ∀ (ops : List (TOp C)) (t u : CTracer C),
      framesInv t → execOps tk t ops = some u →
      (∀ i ui, execOps tk t (ops.take i) = some ui → p + 1 ≤ ui.suggest.length) →
      ∀ fr, t.suggest[p]? = some fr → ∀ X, X ∈ fr.list →
      ∃ fr', u.suggest[p]? = some fr' ∧ X ∈ fr'.list
  | [], t, u, _, h, _, fr, hfr, X, hX => by
    simp only [execOps, Option.some.injEq] at h
    subst h
    exact ⟨fr, hfr, hX⟩
  | op :: ops, t, u, hInv, h, hPre, fr, hfr, X, hX => by
    rw [execOps] at h
    cases hstep : stepOp tk t op with
    | none => rw [hstep] at h; cases h
    | some t1 =>
      rw [hstep] at h
      have h1len : p + 1 ≤ t1.suggest.length := by
        have := hPre 1 t1
        simp only [List.take_succ_cons, List.take_zero, execOps, hstep] at this
        exact this trivial
      obtain ⟨fr1, hfr1, hX1⟩ :=
        stepOp_suggest_preserve tk t t1 op p hInv hstep fr hfr X hX h1len
      exact execOps_suggest_preserve tk p ops t1 u (stepOp_inv tk t t1 op hInv hstep) h
        (fun i ui hui => by
          have := hPre (i + 1) ui
          simp only [List.take_succ_cons, execOps, hstep] at this
          exact this hui)
        fr1 hfr1 X hX1

/-- Claim C4: if an inner frame records `suggest(Xc, s)` and resolves
with `ok`, and the enclosing frame — after any further activity that
keeps it open — subsequently resolves with `err`, then the returned
error's hint list contains that Suggest hint, and its recorded parent
chain contains the inner frame's code. -/
theorem ctracer_hint_propagation (tk : Bool) (t t1 t2 u0 u u' : CTracer C)
    (cI : C) (spI s r s2 : Span) (Xc : C)
    (ops : List (TOp C)) (e e' : ParserError C)
    (hInv : framesInv t)
    (hEnc : t.suggest ≠ [])
    (h1 : CTracer.enter tk t cI spI = some t1)
    (h2 : CTracer.suggestOp t1 Xc s = some t2)
    (h3 : CTracer.ok tk t2 r s2 = some u0)
    (hMid : execOps tk u0 ops = some u)
    (hPre : ∀ i ui, execOps tk u0 (ops.take i) = some ui →
      t.suggest.length ≤ ui.suggest.length)
    (hAtErr : u.suggest.length = t.suggest.length)
    (hErr : CTracer.err tk u e = some (u', e')) :
    ∃ parents, Hints.suggest ⟨Xc, s, parents⟩ ∈ e'.hints ∧ cI ∈ parents := by
  obtain ⟨sfE, hsfE⟩ := getLast?_some_of_ne_nil _ hEnc
  have hspos : 0 < t.suggest.length := List.length_pos.mpr hEnc
  -- the entered inner frame
  rw [CTracer.enter_eq] at h1
  simp only [Option.some.injEq] at h1
  have ht1f : t1.func = t.func ++ [cI] := by rw [← h1]
  have ht1e : t1.expect = t.expect ++ [⟨cI, Usage.track, [], t.func ++ [cI]⟩] := by rw [← h1]
  have ht1s : t1.suggest = t.suggest ++ [⟨cI, Usage.track, [], t.func ++ [cI]⟩] := by rw [← h1]
  -- the suggest call inside the inner frame
  rw [CTracer.suggestOp_eq t1 Xc s ⟨cI, Usage.track, [], t.func ++ [cI]⟩
    (by rw [ht1s]; simp)] at h2
  simp only [Option.some.injEq] at h2
  have ht2f : t2.func = t.func ++ [cI] := by rw [← h2, ht1f]
  have ht2e : t2.expect = t.expect ++ [⟨cI, Usage.track, [], t.func ++ [cI]⟩] := by
    rw [← h2]
    exact ht1e
  have ht2s : t2.suggest =
      t.suggest ++ [⟨cI, Usage.track, [⟨Xc, s, t.func ++ [cI]⟩], t.func ++ [cI]⟩] := by
    rw [← h2, ht1s, ht1f]
    simp
  -- the inner ok merges the hint into the enclosing frame
  obtain ⟨tr3, hok⟩ := CTracer.ok_eq_nested tk t2 r s2
    ⟨cI, Usage.track, [], t.func ++ [cI]⟩
    ⟨cI, Usage.track, [⟨Xc, s, t.func ++ [cI]⟩], t.func ++ [cI]⟩ sfE cI
    (by rw [ht2f]; simp) (by rw [ht2e]; simp) (by rw [ht2s]; simp)
    (by rw [ht2s]; simp [hsfE])
  rw [hok] at h3
  simp only [Option.some.injEq] at h3
  have hu0f : u0.func = t.func := by rw [← h3, ht2f]; simp
  have hu0e : u0.expect = t.expect := by rw [← h3, ht2e]; simp
  have hu0s : u0.suggest = t.suggest.dropLast ++
      [{ sfE with list := sfE.list ++ [⟨Xc, s, t.func ++ [cI]⟩] }] := by
    rw [← h3, ht2s]
    simp
  have hInv0 : framesInv u0 := by
    obtain ⟨hE, hS⟩ := hInv
    constructor
    · rw [hu0e, hu0f]
      exact hE
    · rw [hu0s, hu0f]
      simp only [List.length_append, List.length_dropLast, List.length_cons,
        List.length_nil]
      omega
  -- the enclosing frame's index
  have hfr0 : u0.suggest[t.suggest.length - 1]? =
      some { sfE with list := sfE.list ++ [⟨Xc, s, t.func ++ [cI]⟩] } := by
    rw [hu0s, show t.suggest.length - 1 = t.suggest.dropLast.length by
      rw [List.length_dropLast]]
    exact List.getElem?_concat_length _ _
  have hX0 : (⟨Xc, s, t.func ++ [cI]⟩ : Suggest C) ∈
      ({ sfE with list := sfE.list ++ [⟨Xc, s, t.func ++ [cI]⟩] } : SuggestTrack C).list := by
    simp
  have hPre' : ∀ i ui, execOps tk u0 (ops.take i) = some ui →
      t.suggest.length - 1 + 1 ≤ ui.suggest.length := by
    intro i ui hui
    have := hPre i ui hui
    omega
  obtain ⟨frU, hfrU, hXU⟩ := execOps_suggest_preserve tk (t.suggest.length - 1) ops u0 u
    hInv0 hMid hPre' _ hfr0 _ hX0
  -- the enclosing err folds the frame into the error
  have hulen : u.suggest.length = t.suggest.length := hAtErr
  have hugl : u.suggest.getLast? = some frU := by
    rw [List.getLast?_eq_getElem?, hulen]
    exact hfrU
  have henil : u.expect ≠ [] := by
    intro hc
    rw [CTracer.err_none_of_no_expect tk u e hc] at hErr
    cases hErr
  have hInvU : framesInv u := execOps_inv tk ops u0 u hInv0 hMid
  have hfnil : u.func ≠ [] := by
    obtain ⟨hE, _⟩ := hInvU
    intro hc
    have hp := List.length_pos.mpr henil
    rw [hc] at hE
    simp only [List.length_nil] at hE
    omega
  obtain ⟨f, hff⟩ := getLast?_some_of_ne_nil _ hfnil
  obtain ⟨ef, hef⟩ := getLast?_some_of_ne_nil _ henil
  obtain ⟨tr4, herr⟩ := CTracer.err_eq tk u e ef frU f hff hef hugl
  rw [herr] at hErr
  simp only [Option.some.injEq, Prod.mk.injEq] at hErr
  obtain ⟨-, hE'⟩ := hErr
  refine ⟨t.func ++ [cI], ?_, by simp⟩
  rw [← hE']
  exact List.mem_append_right _ (List.mem_map_of_mem Hints.suggest hXU)

/-- Witness for ctracer_hint_propagation: inner frame 9 suggests code 3
and succeeds; the enclosing frame 7 then fails; the returned error holds
the suggestion with 9 in its parent chain. -/
theorem ctracer_hint_propagation_witness :
    sampleFrameState.suggest ≠ [] ∧
    ∃ parents, Hints.suggest ⟨3, sampleSpan, parents⟩ ∈ c4E.hints ∧ (9 : Nat) ∈ parents :=
  ⟨by decide,
   ctracer_hint_propagation false sampleFrameState c4T1 c4T2 c4U0 c4U0 c4Uf 9
     sampleSpan sampleSpan sampleSpan sampleSpan 3 [] (ParserError.new 5 sampleSpan) c4E
     (by constructor <;> decide) (by decide) rfl rfl rfl rfl
     (by
       intro i ui h
       simp only [List.take_nil, execOps, Option.some.injEq] at h
       subst h
       decide)
     rfl rfl⟩

/-- Counterexample to claim C9: the no-op strategy does not abort on
`ok`/`err` without a prior `enter` — it silently returns the result. -/
theorem notracer_underflow_returns :
    NoTracer.err Unit NoTracer.mk (ParserError.new (5 : Nat) sampleSpan) =
      some (Except.error (ParserError.new 5 sampleSpan)) ∧
    NoTracer.ok (C := Nat) NoTracer.mk sampleSpan sampleSpan () =
      some (Except.ok (sampleSpan, ())) :=
  ⟨rfl, rfl⟩

/-- Claim C9 (amended): `ok`/`err` without a matching prior `enter`
(empty Expect frame stack) abort with a panic on the full-tracking
CTracer and on the replay-only RTracer; the no-op NoTracer silently
returns the result instead. -/
theorem tracer_underflow_contract (tk : Bool) (t : CTracer C) (rt : RTracer C)
    (isSpec : C → Bool) (r s : Span) (e : ParserError C) (re : RParserError C)
    (hce : t.expect = []) (hre : rt.expect = []) :
    CTracer.ok tk t r s = none ∧ CTracer.err tk t e = none ∧
    RTracer.ok rt r s = none ∧ RTracer.err isSpec rt re = none ∧
    NoTracer.ok NoTracer.mk r s () = some ((Except.ok (r, ()) : Except (ParserError C) (Span × Unit))) ∧
    NoTracer.err Unit NoTracer.mk e = some (Except.error e) := by
  refine ⟨CTracer.ok_none_of_no_expect tk t r s hce,
    CTracer.err_none_of_no_expect tk t e hce, ?_, ?_, rfl, rfl⟩
  · simp [RTracer.ok, RTracer.pop_expect, hre]
  · cases het : re.tracing
    · cases hsp : isSpec re.code
      · simp [RTracer.err, RTracer.add_expect, het, hsp, hre]
      · cases hf : rt.func.getLast? <;>
          simp [RTracer.err, RTracer.add_expect, RTracer.funcLast, het, hsp, hf, hre]
    · cases hf : rt.func.getLast? <;>
        simp [RTracer.err, RTracer.pop_expect, RTracer.funcLast, het, hf, hre]

/-- Witness for tracer_underflow_contract on the freshly created
tracers. -/
theorem tracer_underflow_contract_witness :
    ((CTracer.new (C := Nat)).expect = [] ∧ (RTracer.new (C := Nat)).expect = []) ∧
    (CTracer.ok true (CTracer.new (C := Nat)) sampleSpan sampleSpan = none ∧
     CTracer.err true (CTracer.new (C := Nat)) (ParserError.new 5 sampleSpan) = none ∧
     RTracer.ok (RTracer.new (C := Nat)) sampleSpan sampleSpan = none ∧
     RTracer.err (fun _ => false) (RTracer.new (C := Nat))
       ⟨5, sampleSpan, false, [], []⟩ = none ∧
     NoTracer.ok NoTracer.mk sampleSpan sampleSpan () =
       some ((Except.ok (sampleSpan, ()) : Except (ParserError Nat) (Span × Unit))) ∧
     NoTracer.err Unit NoTracer.mk (ParserError.new 5 sampleSpan) =
       some (Except.error (ParserError.new 5 sampleSpan))) :=
  ⟨⟨rfl, rfl⟩,
   tracer_underflow_contract true (CTracer.new (C := Nat)) (RTracer.new (C := Nat)) (fun _ => false)
     sampleSpan sampleSpan (ParserError.new 5 sampleSpan)
     ⟨5, sampleSpan, false, [], []⟩ rfl rfl⟩
